import Mathlib

/-!
Shallow embedding of the Delta ERP storage layer and its client:

* the in-memory store `MemStorage` (server storage module), embedded in
  namespace `Mem`, and
* the Firestore client (client firebase module), embedded in namespace `Fs`,

both modelled as pure state-passing functions over explicit store states.

Modelling conventions:

* JS numbers — and drizzle `numeric` columns, which the source stores as
  decimal strings and converts with `Number(...)` / `String(...)`, an
  injective round trip — are modelled as `Int` (`Num`).
* A `new Date()` result is passed in as an explicit `JsDate` argument, one
  instant per operation; `getFullYear()` / `getMonth() + 1` are the `year` /
  `month` fields and `ms` orders `createdAt` values.
* JS `Map`s and Firestore collections are insertion-ordered association
  lists (`SMap`); `Map.set` / a document write replaces in place when the
  key is present and appends otherwise, `Map.delete` / `deleteDoc` removes
  the keyed entry.  Firestore document ids are opaque strings generated by
  the backend; they are modelled as naturals drawn from a fresh-id counter.
-/

/-- JS numeric values (integral model). -/
abbrev JNum := Int

/-- A JS `Date`: `ms` is the epoch-milliseconds ordering, `year` / `month`
the calendar fields (`getFullYear()` / `getMonth() + 1`). -/
structure JsDate where
  ms : Nat
  year : Nat
  month : Nat
deriving Repr, DecidableEq

/-! ### Insertion-ordered maps (JS `Map` / a Firestore collection) -/

/-- An insertion-ordered key-value store. -/
abbrev SMap (α : Type) := List (Nat × α)

namespace SMap

/-- `Map.get` / fetching a document by id. -/
def get : SMap α → Nat → Option α
  | [], _ => none
  | e :: t, k => if e.1 = k then some e.2 else get t k

/-- `Map.has`. -/
def has : SMap α → Nat → Bool
  | [], _ => false
  | e :: t, k => decide (e.1 = k) || has t k

/-- `Map.set` / a document upsert: replaces in place when the key is present
(JS keeps the original insertion position), appends otherwise. -/
def set : SMap α → Nat → α → SMap α
  | [], k, v => [(k, v)]
  | e :: t, k, v => if e.1 = k then (k, v) :: t else e :: set t k v

/-- `Map.delete` / `deleteDoc`: removes the keyed entry (a no-op when the
key is absent). -/
def erase (m : SMap α) (k : Nat) : SMap α :=
  m.filter fun e => decide ¬(e.1 = k)

/-- `Array.from(map.values())` / the documents of a collection snapshot. -/
def values (m : SMap α) : List α := m.map (·.2)

def keys (m : SMap α) : List Nat := m.map (·.1)

theorem get_set_self (m : SMap α) (k : Nat) (v : α) :
    get (set m k v) k = some v := by
  induction m with
  | nil => simp [set, get]
  | cons e t ih =>
    by_cases h : e.1 = k
    · simp [set, get, h]
    · simp [set, get, h, ih]

theorem get_set_ne (m : SMap α) (k k' : Nat) (v : α) (h : k' ≠ k) :
    get (set m k v) k' = get m k' := by
  induction m with
  | nil => simp [set, get, Ne.symm h]
  | cons e t ih =>
    by_cases he : e.1 = k
    · simp [set, get, he, Ne.symm h, h]
    · by_cases he' : e.1 = k'
      · simp [set, get, he, he', h]
      · simp [set, get, he, he', ih]

theorem get_erase_self (m : SMap α) (k : Nat) :
    get (erase m k) k = none := by
  induction m with
  | nil => simp [erase, get]
  | cons e t ih =>
    by_cases h : e.1 = k
    · simpa [erase, get, h] using ih
    · simpa [erase, get, h] using ih

theorem get_erase_ne (m : SMap α) (k k' : Nat) (h : k' ≠ k) :
    get (erase m k) k' = get m k' := by
  induction m with
  | nil => simp [erase, get]
  | cons e t ih =>
    by_cases he : e.1 = k
    · have hne : ¬ e.1 = k' := by rw [he]; exact Ne.symm h
      rw [show erase (e :: t) k = erase t k by simp [erase, he]]
      rw [ih]
      simp [get, hne]
    · rw [show erase (e :: t) k = e :: erase t k by simp [erase, he]]
      by_cases he' : e.1 = k'
      · simp [get, he']
      · simp [get, he', ih]

theorem has_eq_false_iff (m : SMap α) (k : Nat) :
    has m k = false ↔ k ∉ keys m := by
  induction m with
  | nil => simp [has, keys]
  | cons e t ih =>
    simp only [has, keys, List.map_cons, List.mem_cons, Bool.or_eq_false_iff,
      decide_eq_false_iff_not, ih]
    constructor
    · rintro ⟨h1, h2⟩ (h | h)
      · exact h1 h.symm
      · exact h2 h
    · intro hh
      exact ⟨fun he => hh (Or.inl he.symm), fun hm => hh (Or.inr hm)⟩

theorem set_eq_append (m : SMap α) (k : Nat) (v : α) (h : k ∉ keys m) :
    set m k v = m ++ [(k, v)] := by
  induction m with
  | nil => simp [set]
  | cons e t ih =>
    simp only [keys, List.map_cons, List.mem_cons] at h
    push_neg at h
    have he : ¬ e.1 = k := fun hh => h.1 hh.symm
    simp only [set, if_neg he, List.cons_append]
    rw [ih (by simpa [keys] using h.2)]

end SMap

/-! ### Sum helpers

The source accumulates with `Array.reduce((sum, x) => sum + f(x), 0)` and
with `total += ...` inside `for` loops; both are left folds.  The claim-side
sums are written with `List.sum`. -/

theorem foldl_add_eq_sum {α : Type} (f : α → Int) (l : List α) (a : Int) :
    l.foldl (fun acc x => acc + f x) a = a + (l.map f).sum := by
  induction l generalizing a with
  | nil => simp
  | cons x t ih => simp [ih]; ring

theorem sum_filter_mem_cons {β : Type} (f : β → Int) (key : β → Nat)
    (P : List β) (i : Nat) (ids : List Nat) (hi : i ∉ ids) :
    ((P.filter fun p => decide (key p ∈ i :: ids)).map f).sum
      = ((P.filter fun p => decide (key p = i)).map f).sum
        + ((P.filter fun p => decide (key p ∈ ids)).map f).sum := by
  induction P with
  | nil => simp
  | cons p t ih =>
    simp only [List.filter_cons]
    by_cases h1 : key p = i
    · have h2 : key p ∉ ids := h1 ▸ hi
      rw [if_pos (by simp [h1]), if_pos (by simp [h1]), if_neg (by simp [h2])]
      simp only [List.map_cons, List.sum_cons, ih]
      ring
    · by_cases h2 : key p ∈ ids
      · rw [if_pos (by simp [h2]), if_neg (by simp [h1]), if_pos (by simp [h2])]
        simp only [List.map_cons, List.sum_cons, ih]
        ring
      · rw [if_neg (by simp [h1, h2]), if_neg (by simp [h1]), if_neg (by simp [h2])]
        exact ih

/-- Exchanging a per-parent nested sum for one flat filtered sum: summing,
over each parent record `s`, the `f`-total of the children whose key equals
`kA s`, equals the `f`-total over all children whose key occurs among the
parents — provided the parent keys are pairwise distinct. -/
theorem nested_sum {α β : Type} (f : β → Int) (key : β → Nat) (kA : α → Nat)
    (ss : List α) (P : List β) (hnd : (ss.map kA).Nodup) :
    (ss.map fun s => ((P.filter fun p => decide (key p = kA s)).map f).sum).sum
      = ((P.filter fun p => decide (key p ∈ ss.map kA)).map f).sum := by
  induction ss with
  | nil => simp
  | cons s t ih =>
    simp only [List.map_cons, List.nodup_cons] at hnd
    rw [List.map_cons, List.sum_cons, ih hnd.2, List.map_cons,
      sum_filter_mem_cons f key P (kA s) (t.map kA) hnd.1]

/-! ### Decimal rendering and parsing

`String(n)`, `padStart(width, '0')`, and the `match(/\d+$/)` + `parseInt`
combination used by the parse-last-record numbering policy. -/

/-- Little-endian decimal digits of `n`, with an explicit structural fuel so
that concrete values reduce definitionally (`natRevDigits` below instantiates
the fuel). -/
def natRevDigitsF : Nat → Nat → List Char
  | 0, _ => []
  | _ + 1, 0 => []
  | f + 1, n + 1 => Char.ofNat (48 + (n + 1) % 10) :: natRevDigitsF f ((n + 1) / 10)

def natRevDigits (n : Nat) : List Char := natRevDigitsF n n

/-- The decimal digit characters of `n`, most significant first. -/
def natDigits (n : Nat) : List Char :=
  if n = 0 then ['0'] else (natRevDigits n).reverse

/-- JS `String(n)` on a nonnegative number. -/
def natToString (n : Nat) : String := ⟨natDigits n⟩

/-- JS `s.padStart(w, '0')`. -/
def padZeros (w : Nat) (s : String) : String :=
  ⟨List.replicate (w - s.data.length) '0' ++ s.data⟩

/-- The maximal run of decimal digits at the end of the string
(JS `s.match(/\d+$/)`, as a character list; empty when there is no match). -/
def trailingDigits (s : String) : List Char :=
  (s.data.reverse.takeWhile Char.isDigit).reverse

/-- `parseInt` on a digit string. -/
def digitsVal (l : List Char) : Nat :=
  l.foldl (fun a c => a * 10 + (c.toNat - 48)) 0

/-- JS `s.match(/\d+$/)` followed by `parseInt`, defaulting to `0` when the
regular expression does not match. -/
def parseTrailingNat (s : String) : Nat :=
  let ds := trailingDigits s
  if ds.isEmpty then 0 else digitsVal ds

/-- The generated numbering format of both stores:
`` `PREFIX-${year}${String(month).padStart(2,'0')}-${String(v).padStart(4,'0')}` ``
(`stem` is `"INV-"` for sales and `"RET-"` for returns). -/
def mkInvoiceNumber (stem : String) (y m v : Nat) : String :=
  stem ++ natToString y ++ padZeros 2 (natToString m) ++ "-" ++ padZeros 4 (natToString v)

theorem natRevDigitsF_congr : ∀ f g n, n ≤ f → n ≤ g →
    natRevDigitsF f n = natRevDigitsF g n := by
  intro f
  induction f with
  | zero =>
    intro g n hf _
    interval_cases n
    cases g <;> rfl
  | succ f ih =>
    intro g n hf hg
    match n, g with
    | 0, 0 => rfl
    | 0, g + 1 => rfl
    | n + 1, g + 1 =>
      simp only [natRevDigitsF]
      rw [ih g ((n + 1) / 10) (by omega) (by omega)]

theorem natRevDigits_succ (n : Nat) :
    natRevDigits (n + 1)
      = Char.ofNat (48 + (n + 1) % 10) :: natRevDigits ((n + 1) / 10) := by
  show natRevDigitsF (n + 1) (n + 1) = _
  simp only [natRevDigitsF]
  rw [natRevDigitsF_congr n ((n + 1) / 10) ((n + 1) / 10) (by omega) (by omega)]
  rfl

theorem toNat_digitChar (d : Nat) (hd : d < 10) :
    (Char.ofNat (48 + d)).toNat = 48 + d := by
  interval_cases d <;> decide

theorem isDigit_digitChar (d : Nat) (hd : d < 10) :
    (Char.ofNat (48 + d)).isDigit = true := by
  interval_cases d <;> decide

theorem natRevDigits_all_digits (n : Nat) :
    ∀ c ∈ natRevDigits n, c.isDigit = true := by
  induction n using Nat.strong_induction_on with
  | _ n ih =>
    match n with
    | 0 => intro c hc; simp [natRevDigits, natRevDigitsF] at hc
    | n + 1 =>
      intro c hc
      rw [natRevDigits_succ] at hc
      rcases List.mem_cons.mp hc with h | h
      · subst h; exact isDigit_digitChar _ (Nat.mod_lt _ (by omega))
      · exact ih ((n + 1) / 10) (by omega) c h

theorem digitsVal_append_singleton (l : List Char) (c : Char) :
    digitsVal (l ++ [c]) = digitsVal l * 10 + (c.toNat - 48) := by
  simp [digitsVal, List.foldl_append]

theorem digitsVal_reverse_natRevDigits (n : Nat) :
    digitsVal (natRevDigits n).reverse = n := by
  induction n using Nat.strong_induction_on with
  | _ n ih =>
    match n with
    | 0 => simp [natRevDigits, natRevDigitsF, digitsVal]
    | n + 1 =>
      rw [natRevDigits_succ, List.reverse_cons, digitsVal_append_singleton,
        ih ((n + 1) / 10) (by omega),
        toNat_digitChar _ (Nat.mod_lt _ (by omega))]
      omega

theorem digitsVal_natDigits (n : Nat) : digitsVal (natDigits n) = n := by
  by_cases h : n = 0
  · subst h; decide
  · simp only [natDigits, if_neg h]
    exact digitsVal_reverse_natRevDigits n

theorem digitsVal_replicate_zero_append (k : Nat) (l : List Char) :
    digitsVal (List.replicate k '0' ++ l) = digitsVal l := by
  induction k with
  | zero => simp
  | succ k ih =>
    have : List.replicate (k + 1) '0' ++ l = '0' :: (List.replicate k '0' ++ l) := by
      simp [List.replicate_succ]
    rw [this]
    simpa [digitsVal] using ih

theorem natDigits_ne_nil (n : Nat) : natDigits n ≠ [] := by
  by_cases h : n = 0
  · subst h; simp [natDigits]
  · simp only [natDigits, if_neg h]
    intro hc
    have := digitsVal_reverse_natRevDigits n
    rw [hc] at this
    simp [digitsVal] at this
    omega

theorem natDigits_all_digits (n : Nat) :
    ∀ c ∈ natDigits n, c.isDigit = true := by
  intro c hc
  by_cases h : n = 0
  · subst h; simp [natDigits] at hc; subst hc; decide
  · simp only [natDigits, if_neg h, List.mem_reverse] at hc
    exact natRevDigits_all_digits n c hc

theorem takeWhile_append_all {q : Char → Bool} {a b : List Char}
    (h : ∀ x ∈ a, q x = true) :
    (a ++ b).takeWhile q = a ++ b.takeWhile q := by
  induction a with
  | nil => simp
  | cons x t ih =>
    have hx : q x = true := h x (by simp)
    simp only [List.cons_append, List.takeWhile_cons, hx, if_true]
    rw [ih (fun y hy => h y (by simp [hy]))]

theorem trailingDigits_concat (p0 d : List Char)
    (hd : ∀ c ∈ d, c.isDigit = true) :
    trailingDigits ⟨p0 ++ '-' :: d⟩ = d := by
  show ((p0 ++ '-' :: d).reverse.takeWhile Char.isDigit).reverse = d
  rw [List.reverse_append, List.reverse_cons]
  rw [List.append_assoc]
  rw [takeWhile_append_all (by intro x hx; exact hd x (List.mem_reverse.mp hx))]
  have : (['-'] ++ p0.reverse).takeWhile Char.isDigit = [] := by
    simp [List.takeWhile_cons]
  rw [this]
  simp

/-! ### Shared enumerations -/

/-- The sale payment-status enumeration
(`pending | paid | partially_paid | overdue | cancelled`). -/
inductive PaymentStatus
  | pending
  | paid
  | partiallyPaid
  | overdue
  | cancelled
deriving Repr, DecidableEq

/-! ## The in-memory store (`MemStorage`)

Entity shapes follow the drizzle schema (shared schema module); `serial`
ids are `Nat`, `numeric` columns are `JNum`, `timestamp` columns are
`JsDate`. -/

namespace Mem

structure Customer where
  id : Nat
  name : String
  phone : String
  address : String
  classification : String
  discountPercentage : JNum
  createdAt : JsDate
  updatedAt : JsDate
deriving Repr, DecidableEq

structure Product where
  id : Nat
  name : String
  category : String
  colorOrBatch : String
  price : JNum
  stock : JNum
  createdAt : JsDate
  updatedAt : JsDate
deriving Repr, DecidableEq

structure Sale where
  id : Nat
  invoiceNumber : String
  customerId : Nat
  date : JsDate
  subTotal : JNum
  discountAmount : JNum
  totalAmount : JNum
  paymentMethod : String
  paymentStatus : PaymentStatus
  notes : String
  createdBy : String
  createdAt : JsDate
  updatedAt : JsDate
deriving Repr, DecidableEq

structure SaleItem where
  id : Nat
  saleId : Nat
  productId : Nat
  quantity : JNum
  unitPrice : JNum
  totalPrice : JNum
deriving Repr, DecidableEq

structure ReturnRec where
  id : Nat
  returnNumber : String
  saleId : Nat
  customerId : Nat
  date : JsDate
  totalAmount : JNum
  reason : String
  createdBy : String
  createdAt : JsDate
  updatedAt : JsDate
deriving Repr, DecidableEq

structure ReturnItem where
  id : Nat
  returnId : Nat
  productId : Nat
  quantity : JNum
  unitPrice : JNum
  totalPrice : JNum
deriving Repr, DecidableEq

structure Payment where
  id : Nat
  saleId : Nat
  amount : JNum
  paymentMethod : String
  date : JsDate
  reference : String
  createdBy : String
  createdAt : JsDate
deriving Repr, DecidableEq

structure CustomerBalance where
  id : Nat
  customerId : Nat
  totalSales : JNum
  totalPayments : JNum
  totalReturns : JNum
  balance : JNum
  updatedAt : JsDate
deriving Repr, DecidableEq

/-- `InsertSale` (insert schema: the sale columns minus `id`, `createdAt`,
`updatedAt`; note that `invoiceNumber` is present in the insert type but is
overwritten by `createSale`). -/
structure InsertSale where
  invoiceNumber : String
  customerId : Nat
  date : JsDate
  subTotal : JNum
  discountAmount : JNum
  totalAmount : JNum
  paymentMethod : String
  paymentStatus : PaymentStatus
  notes : String
  createdBy : String
deriving Repr, DecidableEq

/-- `InsertSaleItem` (sale-item columns minus `id`). -/
structure InsertSaleItem where
  saleId : Nat
  productId : Nat
  quantity : JNum
  unitPrice : JNum
  totalPrice : JNum
deriving Repr, DecidableEq

/-- `InsertReturnItem` (return-item columns minus `id`). -/
structure InsertReturnItem where
  returnId : Nat
  productId : Nat
  quantity : JNum
  unitPrice : JNum
  totalPrice : JNum
deriving Repr, DecidableEq

/-- `InsertPayment` (payment columns minus `id`, `createdAt`). -/
structure InsertPayment where
  saleId : Nat
  amount : JNum
  paymentMethod : String
  date : JsDate
  reference : String
  createdBy : String
deriving Repr, DecidableEq

/-- The private maps and id counters of `MemStorage`. -/
structure MemStorage where
  customersMap : SMap Customer
  productsMap : SMap Product
  salesMap : SMap Sale
  saleItemsMap : SMap (List SaleItem)
  returnsMap : SMap ReturnRec
  returnItemsMap : SMap (List ReturnItem)
  paymentsMap : SMap Payment
  customerBalancesMap : SMap CustomerBalance
  customerIdCounter : Nat
  productIdCounter : Nat
  saleIdCounter : Nat
  saleItemIdCounter : Nat
  returnIdCounter : Nat
  returnItemIdCounter : Nat
  paymentIdCounter : Nat
deriving Repr, DecidableEq

/-- The `MemStorage` constructor: empty maps, all counters at 1. -/
def emptyStorage : MemStorage :=
  { customersMap := [], productsMap := [], salesMap := [], saleItemsMap := []
    returnsMap := [], returnItemsMap := [], paymentsMap := []
    customerBalancesMap := []
    customerIdCounter := 1, productIdCounter := 1, saleIdCounter := 1
    saleItemIdCounter := 1, returnIdCounter := 1, returnItemIdCounter := 1
    paymentIdCounter := 1 }

/-- `getPaymentsBySale`: all payments whose `saleId` equals the argument. -/
def getPaymentsBySale (st : MemStorage) (saleId : Nat) : List Payment :=
  (SMap.values st.paymentsMap).filter fun p => decide (p.saleId = saleId)

/-- `updateCustomerBalance`: full rescans of sales, returns, and payments
for the given customer, then an upsert of the derived `CustomerBalance`
record keyed (and `id`ed) by the customer. -/
def updateCustomerBalance (customerId : Nat) (now : JsDate) (st : MemStorage) :
    CustomerBalance × MemStorage :=
  let customerSales := (SMap.values st.salesMap).filter fun s =>
    decide (s.customerId = customerId)
  let totalSales := customerSales.foldl (fun sum s => sum + s.totalAmount) 0
  let customerReturns := (SMap.values st.returnsMap).filter fun r =>
    decide (r.customerId = customerId)
  let totalReturns := customerReturns.foldl (fun sum r => sum + r.totalAmount) 0
  let totalPayments := customerSales.foldl (fun acc s =>
    acc + (getPaymentsBySale st s.id).foldl (fun sum p => sum + p.amount) 0) 0
  let balance := totalSales - totalPayments - totalReturns
  let customerBalance : CustomerBalance :=
    { id := customerId, customerId := customerId, totalSales := totalSales
      totalPayments := totalPayments, totalReturns := totalReturns
      balance := balance, updatedAt := now }
  (customerBalance,
   { st with customerBalancesMap :=
      SMap.set st.customerBalancesMap customerId customerBalance })

/-- `createSale`: takes the next sale id, builds
`` `INV-${year}${month}-${String(id).padStart(4,'0')}` ``, stores the sale
and an empty item list, then triggers the ledger aggregation. -/
def createSale (insertSale : InsertSale) (now : JsDate) (st : MemStorage) :
    Sale × MemStorage :=
  let id := st.saleIdCounter
  let invoiceNumber := mkInvoiceNumber "INV-" now.year now.month id
  let sale : Sale :=
    { id := id, invoiceNumber := invoiceNumber
      customerId := insertSale.customerId, date := insertSale.date
      subTotal := insertSale.subTotal
      discountAmount := insertSale.discountAmount
      totalAmount := insertSale.totalAmount
      paymentMethod := insertSale.paymentMethod
      paymentStatus := insertSale.paymentStatus, notes := insertSale.notes
      createdBy := insertSale.createdBy, createdAt := now, updatedAt := now }
  let st1 := { st with
    saleIdCounter := st.saleIdCounter + 1
    salesMap := SMap.set st.salesMap id sale
    saleItemsMap := SMap.set st.saleItemsMap id [] }
  (sale, (updateCustomerBalance sale.customerId now st1).2)

/-- `addSaleItem`: records the item under its sale and, when the product
exists, decrements its stock by the item quantity (no floor at zero). -/
def addSaleItem (insertSaleItem : InsertSaleItem) (now : JsDate)
    (st : MemStorage) : SaleItem × MemStorage :=
  let id := st.saleItemIdCounter
  let saleItem : SaleItem :=
    { id := id, saleId := insertSaleItem.saleId
      productId := insertSaleItem.productId
      quantity := insertSaleItem.quantity
      unitPrice := insertSaleItem.unitPrice
      totalPrice := insertSaleItem.totalPrice }
  let saleItems := (SMap.get st.saleItemsMap saleItem.saleId).getD []
  let st1 := { st with
    saleItemIdCounter := st.saleItemIdCounter + 1
    saleItemsMap := SMap.set st.saleItemsMap saleItem.saleId (saleItems ++ [saleItem]) }
  match SMap.get st1.productsMap saleItem.productId with
  | some product =>
    let updatedProduct := { product with
      stock := product.stock - saleItem.quantity, updatedAt := now }
    (saleItem, { st1 with
      productsMap := SMap.set st1.productsMap product.id updatedProduct })
  | none => (saleItem, st1)

/-- `addReturnItem`: records the item under its return and, when the product
exists, increments its stock by the item quantity. -/
def addReturnItem (insertReturnItem : InsertReturnItem) (now : JsDate)
    (st : MemStorage) : ReturnItem × MemStorage :=
  let id := st.returnItemIdCounter
  let returnItem : ReturnItem :=
    { id := id, returnId := insertReturnItem.returnId
      productId := insertReturnItem.productId
      quantity := insertReturnItem.quantity
      unitPrice := insertReturnItem.unitPrice
      totalPrice := insertReturnItem.totalPrice }
  let returnItems := (SMap.get st.returnItemsMap returnItem.returnId).getD []
  let st1 := { st with
    returnItemIdCounter := st.returnItemIdCounter + 1
    returnItemsMap :=
      SMap.set st.returnItemsMap returnItem.returnId (returnItems ++ [returnItem]) }
  match SMap.get st1.productsMap returnItem.productId with
  | some product =>
    let updatedProduct := { product with
      stock := product.stock + returnItem.quantity, updatedAt := now }
    (returnItem, { st1 with
      productsMap := SMap.set st1.productsMap product.id updatedProduct })
  | none => (returnItem, st1)

/-- `createPayment`: stores the payment; when the referenced sale exists,
re-derives its payment status from the sum over all payments for the sale
(including the new one) and triggers the ledger aggregation; otherwise the
status derivation and aggregation are skipped. -/
def createPayment (insertPayment : InsertPayment) (now : JsDate)
    (st : MemStorage) : Payment × MemStorage :=
  let id := st.paymentIdCounter
  let payment : Payment :=
    { id := id, saleId := insertPayment.saleId
      amount := insertPayment.amount
      paymentMethod := insertPayment.paymentMethod
      date := insertPayment.date, reference := insertPayment.reference
      createdBy := insertPayment.createdBy, createdAt := now }
  let st1 := { st with
    paymentIdCounter := st.paymentIdCounter + 1
    paymentsMap := SMap.set st.paymentsMap id payment }
  match SMap.get st1.salesMap payment.saleId with
  | some sale =>
    let payments := getPaymentsBySale st1 payment.saleId
    let totalPaid := payments.foldl (fun sum p => sum + p.amount) 0
    let paymentStatus :=
      if sale.totalAmount ≤ totalPaid then PaymentStatus.paid
      else if 0 < totalPaid then PaymentStatus.partiallyPaid
      else PaymentStatus.pending
    let updatedSale := { sale with paymentStatus := paymentStatus, updatedAt := now }
    let st2 := { st1 with salesMap := SMap.set st1.salesMap sale.id updatedSale }
    (payment, (updateCustomerBalance sale.customerId now st2).2)
  | none => (payment, st1)

/-- `deleteCustomer`: removes the record when present and reports whether it
existed. -/
def deleteCustomer (id : Nat) (st : MemStorage) : Bool × MemStorage :=
  if SMap.has st.customersMap id then
    (true, { st with customersMap := SMap.erase st.customersMap id })
  else (false, st)

/-- `deleteProduct`: removes the record when present and reports whether it
existed. -/
def deleteProduct (id : Nat) (st : MemStorage) : Bool × MemStorage :=
  if SMap.has st.productsMap id then
    (true, { st with productsMap := SMap.erase st.productsMap id })
  else (false, st)

/-! Claim-side aggregates for the in-memory store, written from the spec
wording: total sales / returns are sums of `totalAmount` over the
customer's sales / returns, total payments is the sum of `amount` over all
payments whose `saleId` is one of the customer's sale ids. -/

/-- The claim's "all sales whose customerId is c". -/
def claimSalesOf (st : MemStorage) (c : Nat) : List Sale :=
  (SMap.values st.salesMap).filter fun s => decide (s.customerId = c)

/-- The claim's "sum of totalAmount over all sales whose customerId is c". -/
def claimTotalSales (st : MemStorage) (c : Nat) : JNum :=
  ((claimSalesOf st c).map (·.totalAmount)).sum

/-- The claim's "sum of totalAmount over all returns whose customerId is c". -/
def claimTotalReturns (st : MemStorage) (c : Nat) : JNum :=
  ((((SMap.values st.returnsMap).filter fun r => decide (r.customerId = c))).map
    (·.totalAmount)).sum

/-- The ids of the customer's sales. -/
def claimSaleIds (st : MemStorage) (c : Nat) : List Nat :=
  (claimSalesOf st c).map (·.id)

/-- The claim's "sum of amount over all payments whose saleId is one of c's
sales". -/
def claimTotalPayments (st : MemStorage) (c : Nat) : JNum :=
  (((SMap.values st.paymentsMap).filter fun p =>
    decide (p.saleId ∈ claimSaleIds st c)).map (·.amount)).sum

end Mem

/-! ## The Firestore client (client firebase module)

Document data shapes follow the client-side interfaces; a document's id is
its key in the collection `SMap` (document ids are opaque backend-generated
strings, modelled as naturals drawn from the store's fresh-id counter, which
`addDoc` consumes).  `updateDoc` on a missing document rejects; every call
site in the embedded operations guards on existence first, and the missing
branch is modelled as a no-op. -/

namespace Fs

structure FsCustomer where
  name : String
  phone : String
  address : String
  classification : String
  discountPercentage : JNum
  createdAt : JsDate
  updatedAt : JsDate
deriving Repr, DecidableEq

structure FsProduct where
  name : String
  category : String
  colorOrBatch : String
  price : JNum
  stock : JNum
  createdAt : JsDate
  updatedAt : JsDate
deriving Repr, DecidableEq

structure FsSale where
  invoiceNumber : String
  customerId : Nat
  date : JsDate
  subTotal : JNum
  discountAmount : JNum
  totalAmount : JNum
  paymentMethod : String
  paymentStatus : PaymentStatus
  notes : String
  createdBy : String
  createdAt : JsDate
  updatedAt : JsDate
deriving Repr, DecidableEq

/-- A sale/return line-item document (`Omit<SaleItem, 'id'>` is also the
insert shape used by `createSale` / `updateSale`). -/
structure FsSaleItem where
  productId : Nat
  quantity : JNum
  unitPrice : JNum
  totalPrice : JNum
deriving Repr, DecidableEq

structure FsReturnItem where
  productId : Nat
  quantity : JNum
  unitPrice : JNum
  totalPrice : JNum
deriving Repr, DecidableEq

structure FsReturn where
  returnNumber : String
  saleId : Nat
  customerId : Nat
  date : JsDate
  totalAmount : JNum
  reason : String
  createdBy : String
  createdAt : JsDate
  updatedAt : JsDate
deriving Repr, DecidableEq

structure FsPayment where
  saleId : Nat
  amount : JNum
  paymentMethod : String
  date : JsDate
  reference : String
  createdBy : String
  createdAt : JsDate
deriving Repr, DecidableEq

structure FsBalance where
  customerId : Nat
  totalSales : JNum
  totalPayments : JNum
  totalReturns : JNum
  balance : JNum
  updatedAt : JsDate
deriving Repr, DecidableEq

/-- `Omit<Sale, 'id' | 'items' | 'createdAt' | 'updatedAt'>`: the
`createSale` / `updateSale` data argument (`invoiceNumber` is present but
`createSale` overwrites it with the generated one). -/
structure FsSaleInput where
  invoiceNumber : String
  customerId : Nat
  date : JsDate
  subTotal : JNum
  discountAmount : JNum
  totalAmount : JNum
  paymentMethod : String
  paymentStatus : PaymentStatus
  notes : String
  createdBy : String
deriving Repr, DecidableEq

/-- `Omit<Payment, 'id' | 'createdAt'>`: the `createPayment` data argument. -/
structure FsPaymentInput where
  saleId : Nat
  amount : JNum
  paymentMethod : String
  date : JsDate
  reference : String
  createdBy : String
deriving Repr, DecidableEq

/-- The Firestore database state: one `SMap` per top-level collection, the
per-sale `items` subcollections keyed by the owning sale's document id, and
the fresh document-id counter. -/
structure FsStore where
  customers : SMap FsCustomer
  products : SMap FsProduct
  sales : SMap FsSale
  saleItems : SMap (SMap FsSaleItem)
  returns : SMap FsReturn
  returnItems : SMap (SMap FsReturnItem)
  payments : SMap FsPayment
  customerBalances : SMap FsBalance
  nextId : Nat
deriving Repr, DecidableEq

/-- `deleteDoc(doc(db, "customers", id))`: unconditional removal, no result. -/
def deleteCustomer (id : Nat) (st : FsStore) : Unit × FsStore :=
  ((), { st with customers := SMap.erase st.customers id })

/-- `deleteDoc(doc(db, "products", id))`: unconditional removal, no result. -/
def deleteProduct (id : Nat) (st : FsStore) : Unit × FsStore :=
  ((), { st with products := SMap.erase st.products id })

/-- `updateProduct(id, data)`: `updateDoc` field merge plus a fresh
`updatedAt`; rejects when the document is absent (modelled as a no-op —
every call site guards on existence). -/
def updateProduct (id : Nat) (patch : FsProduct → FsProduct) (now : JsDate)
    (st : FsStore) : FsStore :=
  match SMap.get st.products id with
  | some p =>
    let p1 := { patch p with updatedAt := now }
    { st with products := SMap.set st.products id p1 }
  | none => st

/-- `updateDoc` on a sale document: field merge plus a fresh `updatedAt`
(no-op when absent, as above). -/
def updateSaleDoc (id : Nat) (patch : FsSale → FsSale) (now : JsDate)
    (st : FsStore) : FsStore :=
  match SMap.get st.sales id with
  | some s =>
    let s1 := { patch s with updatedAt := now }
    { st with sales := SMap.set st.sales id s1 }
  | none => st

/-- `getPaymentsBySale`: the payment documents whose `saleId` field equals
the given sale document id. -/
def getPaymentsBySale (st : FsStore) (saleId : Nat) : List FsPayment :=
  (st.payments.filter fun e => decide (e.2.saleId = saleId)).map (·.2)

/-- The query `orderBy("createdAt", "desc") + limit(1)` over the sales
collection: the document with the greatest `createdAt` (the earliest
inserted one on a tie). -/
def latestSale (sales : SMap FsSale) : Option (Nat × FsSale) :=
  sales.foldl (fun acc e =>
    match acc with
    | none => some e
    | some a => if a.2.createdAt.ms < e.2.createdAt.ms then some e else acc) none

/-- The `lastNumber` computed by `createSale`: the `/\d+$/` match of the most
recently created sale's invoice number, or 0 with no sales / no match. -/
def lastInvoiceVal (sales : SMap FsSale) : Nat :=
  match latestSale sales with
  | none => 0
  | some e => parseTrailingNat e.2.invoiceNumber

/-- One iteration of the item loop of `createSale` / the second loop of
`updateSale`: `addDoc` the item into the sale's `items` subcollection, then
decrement the product's stock when the product exists. -/
def applyOneSaleItem (saleDocId : Nat) (now : JsDate) (st : FsStore)
    (item : FsSaleItem) : FsStore :=
  let sub := (SMap.get st.saleItems saleDocId).getD []
  let st1 := { st with
    saleItems := SMap.set st.saleItems saleDocId (SMap.set sub st.nextId item)
    nextId := st.nextId + 1 }
  match SMap.get st1.products item.productId with
  | some product =>
    updateProduct item.productId
      (fun q => { q with stock := product.stock - item.quantity }) now st1
  | none => st1

/-- The item loop of `createSale` / the second loop of `updateSale`. -/
def applySaleItems (saleDocId : Nat) (items : List FsSaleItem) (now : JsDate)
    (st : FsStore) : FsStore :=
  items.foldl (applyOneSaleItem saleDocId now) st

/-- `updateCustomerBalance`: full rescans for the customer, then an update
of the existing balance document or a `setDoc` of a fresh one. -/
def updateCustomerBalance (customerId : Nat) (now : JsDate) (st : FsStore) :
    FsStore :=
  let salesSnapshot := st.sales.filter fun e => decide (e.2.customerId = customerId)
  let totalSales := salesSnapshot.foldl (fun sum e => sum + e.2.totalAmount) 0
  let returnsSnapshot := st.returns.filter fun e => decide (e.2.customerId = customerId)
  let totalReturns := returnsSnapshot.foldl (fun sum e => sum + e.2.totalAmount) 0
  let totalPayments := salesSnapshot.foldl (fun acc e =>
    acc + (getPaymentsBySale st e.1).foldl (fun sum p => sum + p.amount) 0) 0
  let balance := totalSales - totalPayments - totalReturns
  match SMap.get st.customerBalances customerId with
  | some b =>
    let b1 := { b with totalSales := totalSales, totalPayments := totalPayments
                       totalReturns := totalReturns, balance := balance
                       updatedAt := now }
    { st with customerBalances := SMap.set st.customerBalances customerId b1 }
  | none =>
    let b1 : FsBalance :=
      { customerId := customerId, totalSales := totalSales
        totalPayments := totalPayments, totalReturns := totalReturns
        balance := balance, updatedAt := now }
    { st with customerBalances := SMap.set st.customerBalances customerId b1 }

/-- The sale document written by `createSale`: the data fields, the
generated invoice number, and fresh timestamps. -/
def newSaleDoc (data : FsSaleInput) (inv : String) (now : JsDate) : FsSale :=
  { invoiceNumber := inv, customerId := data.customerId
    date := data.date, subTotal := data.subTotal
    discountAmount := data.discountAmount, totalAmount := data.totalAmount
    paymentMethod := data.paymentMethod, paymentStatus := data.paymentStatus
    notes := data.notes, createdBy := data.createdBy
    createdAt := now, updatedAt := now }

/-- `createSale(data, items)`: parse the most recent invoice number to get
the next sequence value, `addDoc` the sale, loop over the items (recording
each and decrementing existing products' stock), then aggregate the
customer's balance.  Returns the new document id. -/
def createSale (data : FsSaleInput) (items : List FsSaleItem) (now : JsDate)
    (st : FsStore) : Nat × FsStore :=
  let lastNumber := lastInvoiceVal st.sales
  let invoiceNumber := mkInvoiceNumber "INV-" now.year now.month (lastNumber + 1)
  let sale : FsSale := newSaleDoc data invoiceNumber now
  let saleDocId := st.nextId
  let st1 := { st with sales := SMap.set st.sales saleDocId sale
                       nextId := st.nextId + 1 }
  let st2 := applySaleItems saleDocId items now st1
  (saleDocId, updateCustomerBalance data.customerId now st2)

/-- One iteration of the first loop of `updateSale`: return the item's
quantity to an existing product's stock, then delete the item document. -/
def revertOneItem (saleDocId : Nat) (now : JsDate) (st : FsStore)
    (e : Nat × FsSaleItem) : FsStore :=
  let st1 :=
    match SMap.get st.products e.2.productId with
    | some product =>
      updateProduct e.2.productId
        (fun q => { q with stock := product.stock + e.2.quantity }) now st
    | none => st
  let sub := SMap.erase ((SMap.get st1.saleItems saleDocId).getD []) e.1
  { st1 with saleItems := SMap.set st1.saleItems saleDocId sub }

/-- The first loop of `updateSale` over the existing item snapshot. -/
def revertOldItems (saleDocId : Nat) (snapshot : SMap FsSaleItem) (now : JsDate)
    (st : FsStore) : FsStore :=
  snapshot.foldl (revertOneItem saleDocId now) st

/-- `updateSale(id, data, items?)`: merge the partial fields onto the sale
document; when a replacement item list is supplied and the sale exists,
revert and delete the old items then record and apply the new ones; finally
re-read the sale and aggregate its customer's balance. -/
def updateSale (id : Nat) (patch : FsSale → FsSale)
    (items : Option (List FsSaleItem)) (now : JsDate) (st : FsStore) : FsStore :=
  let st1 := updateSaleDoc id patch now st
  let st2 :=
    match items with
    | none => st1
    | some newItems =>
      match SMap.get st1.sales id with
      | none => st1
      | some _ =>
        let snapshot := (SMap.get st1.saleItems id).getD []
        applySaleItems id newItems now (revertOldItems id snapshot now st1)
  match SMap.get st2.sales id with
  | some s => updateCustomerBalance s.customerId now st2
  | none => st2

/-- `createPayment(data)`: `addDoc` the payment; when the referenced sale
exists, sum all payments for it (including the new one), classify the
status, write it onto the sale via `updateSale`, and aggregate the
customer's balance.  Returns the new document id. -/
def createPayment (data : FsPaymentInput) (now : JsDate) (st : FsStore) :
    Nat × FsStore :=
  let payment : FsPayment :=
    { saleId := data.saleId, amount := data.amount
      paymentMethod := data.paymentMethod, date := data.date
      reference := data.reference, createdBy := data.createdBy
      createdAt := now }
  let paymentDocId := st.nextId
  let st1 := { st with payments := SMap.set st.payments paymentDocId payment
                       nextId := st.nextId + 1 }
  match SMap.get st1.sales data.saleId with
  | some sale =>
    let payments := getPaymentsBySale st1 data.saleId
    let totalPaid := payments.foldl (fun sum p => sum + p.amount) 0
    let paymentStatus :=
      if sale.totalAmount ≤ totalPaid then PaymentStatus.paid
      else if 0 < totalPaid then PaymentStatus.partiallyPaid
      else PaymentStatus.pending
    let st2 := updateSale data.saleId
      (fun s => { s with paymentStatus := paymentStatus }) none now st1
    (paymentDocId, updateCustomerBalance sale.customerId now st2)
  | none => (paymentDocId, st1)

/-! Claim-side aggregates for the Firestore client (spec wording, with the
customer's sale document ids as the payment keys). -/

/-- The claim's "all sales whose customerId is c" (as documents). -/
def claimSalesOf (st : FsStore) (c : Nat) : SMap FsSale :=
  st.sales.filter fun e => decide (e.2.customerId = c)

/-- The claim's "sum of totalAmount over all sales whose customerId is c". -/
def claimTotalSales (st : FsStore) (c : Nat) : JNum :=
  ((claimSalesOf st c).map (·.2.totalAmount)).sum

/-- The claim's "sum of totalAmount over all returns whose customerId is c". -/
def claimTotalReturns (st : FsStore) (c : Nat) : JNum :=
  (((st.returns.filter fun e => decide (e.2.customerId = c))).map
    (·.2.totalAmount)).sum

/-- The document ids of the customer's sales. -/
def claimSaleIds (st : FsStore) (c : Nat) : List Nat :=
  (claimSalesOf st c).map (·.1)

/-- The claim's "sum of amount over all payments whose saleId is one of c's
sales". -/
def claimTotalPayments (st : FsStore) (c : Nat) : JNum :=
  (((st.payments.map (·.2)).filter fun p =>
    decide (p.saleId ∈ claimSaleIds st c)).map (·.amount)).sum

end Fs

/-! ## Frame facts about the ledger aggregator -/

namespace Mem

theorem updCB_customersMap (c : Nat) (now : JsDate) (st : MemStorage) :
    ((updateCustomerBalance c now st).2).customersMap = st.customersMap := rfl

theorem updCB_productsMap (c : Nat) (now : JsDate) (st : MemStorage) :
    ((updateCustomerBalance c now st).2).productsMap = st.productsMap := rfl

theorem updCB_salesMap (c : Nat) (now : JsDate) (st : MemStorage) :
    ((updateCustomerBalance c now st).2).salesMap = st.salesMap := rfl

theorem updCB_saleItemsMap (c : Nat) (now : JsDate) (st : MemStorage) :
    ((updateCustomerBalance c now st).2).saleItemsMap = st.saleItemsMap := rfl

theorem updCB_returnsMap (c : Nat) (now : JsDate) (st : MemStorage) :
    ((updateCustomerBalance c now st).2).returnsMap = st.returnsMap := rfl

theorem updCB_returnItemsMap (c : Nat) (now : JsDate) (st : MemStorage) :
    ((updateCustomerBalance c now st).2).returnItemsMap = st.returnItemsMap := rfl

theorem updCB_paymentsMap (c : Nat) (now : JsDate) (st : MemStorage) :
    ((updateCustomerBalance c now st).2).paymentsMap = st.paymentsMap := rfl

theorem updCB_balancesMap (c : Nat) (now : JsDate) (st : MemStorage) :
    ((updateCustomerBalance c now st).2).customerBalancesMap
      = SMap.set st.customerBalancesMap c (updateCustomerBalance c now st).1 := rfl

/-- The in-memory aggregator stores exactly the claim-side aggregates:
full-scan sums of the customer's sales, returns, and payments on the
customer's sales, with `balance = totalSales - totalPayments - totalReturns`,
provided the customer's stored sale ids are pairwise distinct. -/
theorem updCB_spec (c : Nat) (now : JsDate) (st : MemStorage)
    (hnd : (claimSaleIds st c).Nodup) :
    SMap.get ((updateCustomerBalance c now st).2).customerBalancesMap c
        = some (updateCustomerBalance c now st).1
    ∧ (updateCustomerBalance c now st).1.totalSales = claimTotalSales st c
    ∧ (updateCustomerBalance c now st).1.totalReturns = claimTotalReturns st c
    ∧ (updateCustomerBalance c now st).1.totalPayments = claimTotalPayments st c
    ∧ (updateCustomerBalance c now st).1.balance
        = claimTotalSales st c - claimTotalPayments st c - claimTotalReturns st c := by
  have hsales : (updateCustomerBalance c now st).1.totalSales = claimTotalSales st c := by
    show ((SMap.values st.salesMap).filter fun s =>
        decide (s.customerId = c)).foldl (fun sum s => sum + s.totalAmount) 0
      = claimTotalSales st c
    rw [foldl_add_eq_sum Sale.totalAmount]
    simp [claimTotalSales, claimSalesOf]
  have hreturns : (updateCustomerBalance c now st).1.totalReturns = claimTotalReturns st c := by
    show ((SMap.values st.returnsMap).filter fun r =>
        decide (r.customerId = c)).foldl (fun sum r => sum + r.totalAmount) 0
      = claimTotalReturns st c
    rw [foldl_add_eq_sum ReturnRec.totalAmount]
    simp [claimTotalReturns]
  have hpay : (updateCustomerBalance c now st).1.totalPayments = claimTotalPayments st c := by
    show ((SMap.values st.salesMap).filter fun s =>
        decide (s.customerId = c)).foldl (fun acc s =>
          acc + (getPaymentsBySale st s.id).foldl (fun sum p => sum + p.amount) 0) 0
      = claimTotalPayments st c
    simp only [getPaymentsBySale, foldl_add_eq_sum, zero_add]
    have hnd2 : (((SMap.values st.salesMap).filter fun s =>
        decide (s.customerId = c)).map Sale.id).Nodup := hnd
    rw [nested_sum Payment.amount Payment.saleId Sale.id _ _ hnd2]
    rfl
  refine ⟨?_, hsales, hreturns, hpay, ?_⟩
  · rw [updCB_balancesMap, SMap.get_set_self]
  · show (updateCustomerBalance c now st).1.totalSales
        - (updateCustomerBalance c now st).1.totalPayments
        - (updateCustomerBalance c now st).1.totalReturns
      = claimTotalSales st c - claimTotalPayments st c - claimTotalReturns st c
    rw [hsales, hreturns, hpay]

end Mem

namespace Fs

theorem updCB_customers (c : Nat) (now : JsDate) (st : FsStore) :
    (updateCustomerBalance c now st).customers = st.customers := by
  unfold updateCustomerBalance
  cases SMap.get st.customerBalances c <;> rfl

theorem updCB_products (c : Nat) (now : JsDate) (st : FsStore) :
    (updateCustomerBalance c now st).products = st.products := by
  unfold updateCustomerBalance
  cases SMap.get st.customerBalances c <;> rfl

theorem updCB_sales (c : Nat) (now : JsDate) (st : FsStore) :
    (updateCustomerBalance c now st).sales = st.sales := by
  unfold updateCustomerBalance
  cases SMap.get st.customerBalances c <;> rfl

theorem updCB_saleItems (c : Nat) (now : JsDate) (st : FsStore) :
    (updateCustomerBalance c now st).saleItems = st.saleItems := by
  unfold updateCustomerBalance
  cases SMap.get st.customerBalances c <;> rfl

theorem updCB_returns (c : Nat) (now : JsDate) (st : FsStore) :
    (updateCustomerBalance c now st).returns = st.returns := by
  unfold updateCustomerBalance
  cases SMap.get st.customerBalances c <;> rfl

theorem updCB_returnItems (c : Nat) (now : JsDate) (st : FsStore) :
    (updateCustomerBalance c now st).returnItems = st.returnItems := by
  unfold updateCustomerBalance
  cases SMap.get st.customerBalances c <;> rfl

theorem updCB_payments (c : Nat) (now : JsDate) (st : FsStore) :
    (updateCustomerBalance c now st).payments = st.payments := by
  unfold updateCustomerBalance
  cases SMap.get st.customerBalances c <;> rfl

theorem updCB_nextId (c : Nat) (now : JsDate) (st : FsStore) :
    (updateCustomerBalance c now st).nextId = st.nextId := by
  unfold updateCustomerBalance
  cases SMap.get st.customerBalances c <;> rfl

/-- The numeric fields written by the Firestore aggregator (either branch of
the upsert stores the same four computed values). -/
theorem updCB_stored (c : Nat) (now : JsDate) (st : FsStore) :
    ∃ b : FsBalance,
      SMap.get (updateCustomerBalance c now st).customerBalances c = some b
      ∧ b.totalSales
          = (st.sales.filter fun e => decide (e.2.customerId = c)).foldl
              (fun sum e => sum + e.2.totalAmount) 0
      ∧ b.totalReturns
          = (st.returns.filter fun e => decide (e.2.customerId = c)).foldl
              (fun sum e => sum + e.2.totalAmount) 0
      ∧ b.totalPayments
          = (st.sales.filter fun e => decide (e.2.customerId = c)).foldl
              (fun acc e => acc + (getPaymentsBySale st e.1).foldl
                (fun sum p => sum + p.amount) 0) 0
      ∧ b.balance = b.totalSales - b.totalPayments - b.totalReturns := by
  unfold updateCustomerBalance
  cases SMap.get st.customerBalances c with
  | none => exact ⟨_, SMap.get_set_self _ _ _, rfl, rfl, rfl, rfl⟩
  | some b0 => exact ⟨_, SMap.get_set_self _ _ _, rfl, rfl, rfl, rfl⟩

/-- Commuting a `filter` on the value component past extracting values. -/
theorem filter_snd_comm {α : Type} (l : SMap α) (q : α → Bool) :
    (l.filter fun e => q e.2).map (·.2) = (l.map (·.2)).filter q := by
  induction l with
  | nil => rfl
  | cons e t ih =>
    by_cases h : q e.2
    · simp [List.filter_cons, h, ih]
    · simp [List.filter_cons, h, ih]

/-- The Firestore aggregator stores exactly the claim-side aggregates,
provided the customer's sale document ids are pairwise distinct. -/
theorem updCB_fs_spec (c : Nat) (now : JsDate) (st : FsStore)
    (hnd : (claimSaleIds st c).Nodup) :
    ∃ b : FsBalance,
      SMap.get (updateCustomerBalance c now st).customerBalances c = some b
      ∧ b.totalSales = claimTotalSales st c
      ∧ b.totalReturns = claimTotalReturns st c
      ∧ b.totalPayments = claimTotalPayments st c
      ∧ b.balance
          = claimTotalSales st c - claimTotalPayments st c - claimTotalReturns st c := by
  obtain ⟨b, hget, h1, h2, h3, h4⟩ := updCB_stored c now st
  have hs : b.totalSales = claimTotalSales st c := by
    rw [h1, foldl_add_eq_sum (fun e : Nat × FsSale => e.2.totalAmount)]
    simp [claimTotalSales, claimSalesOf]
  have hr : b.totalReturns = claimTotalReturns st c := by
    rw [h2, foldl_add_eq_sum (fun e : Nat × FsReturn => e.2.totalAmount)]
    simp [claimTotalReturns]
  have hp : b.totalPayments = claimTotalPayments st c := by
    rw [h3]
    simp only [getPaymentsBySale, foldl_add_eq_sum, zero_add]
    have hcomm : ∀ sid : Nat,
        List.map FsPayment.amount
            (List.map (fun x : Nat × FsPayment => x.2)
              (List.filter (fun e => decide (e.2.saleId = sid)) st.payments))
          = List.map FsPayment.amount
              (List.filter (fun p => decide (p.saleId = sid))
                (List.map (fun x : Nat × FsPayment => x.2) st.payments)) := by
      intro sid
      rw [filter_snd_comm st.payments (fun p => decide (p.saleId = sid))]
    simp only [hcomm]
    have hnd2 : ((st.sales.filter fun e =>
        decide (e.2.customerId = c)).map (fun e : Nat × FsSale => e.1)).Nodup := hnd
    rw [nested_sum FsPayment.amount FsPayment.saleId (fun e : Nat × FsSale => e.1) _ _ hnd2]
    rfl
  exact ⟨b, hget, hs, hr, hp, by rw [h4, hs, hr, hp]⟩

end Fs

/-! ## Concrete sample fixtures (used by the witnesses and counterexamples) -/

def sampleDate : JsDate := { ms := 100, year := 2025, month := 4 }

def sampleDate2 : JsDate := { ms := 200, year := 2025, month := 4 }

def mkMemSale (id cust : Nat) (total : JNum) : Mem.Sale :=
  { id := id, invoiceNumber := "", customerId := cust, date := sampleDate
    subTotal := total, discountAmount := 0, totalAmount := total
    paymentMethod := "cash", paymentStatus := PaymentStatus.pending
    notes := "", createdBy := "u", createdAt := sampleDate
    updatedAt := sampleDate }

def mkMemReturn (id cust : Nat) (total : JNum) : Mem.ReturnRec :=
  { id := id, returnNumber := "", saleId := 1, customerId := cust
    date := sampleDate, totalAmount := total, reason := ""
    createdBy := "u", createdAt := sampleDate, updatedAt := sampleDate }

def mkMemPayment (id saleId : Nat) (amount : JNum) : Mem.Payment :=
  { id := id, saleId := saleId, amount := amount, paymentMethod := "cash"
    date := sampleDate, reference := "", createdBy := "u"
    createdAt := sampleDate }

def mkMemProduct (id : Nat) (stock : JNum) : Mem.Product :=
  { id := id, name := "paint", category := "construction", colorOrBatch := ""
    price := 10, stock := stock, createdAt := sampleDate
    updatedAt := sampleDate }

def mkMemCustomer (id : Nat) : Mem.Customer :=
  { id := id, name := "c", phone := "", address := ""
    classification := "store", discountPercentage := 0
    createdAt := sampleDate, updatedAt := sampleDate }

def sampleMemSt : Mem.MemStorage :=
  { Mem.emptyStorage with
    customersMap := [(7, mkMemCustomer 7), (8, mkMemCustomer 8)]
    productsMap := [(5, mkMemProduct 5 10)]
    salesMap := [(1, mkMemSale 1 7 30), (2, mkMemSale 2 9 99)]
    returnsMap := [(4, mkMemReturn 4 7 10)]
    paymentsMap := [(1, mkMemPayment 1 1 20)]
    saleIdCounter := 3, paymentIdCounter := 2 }

def mkFsSale (cust : Nat) (total : JNum) (created : JsDate) : Fs.FsSale :=
  { invoiceNumber := "INV-202503-0007", customerId := cust, date := created
    subTotal := total, discountAmount := 0, totalAmount := total
    paymentMethod := "cash", paymentStatus := PaymentStatus.pending
    notes := "", createdBy := "u", createdAt := created, updatedAt := created }

def mkFsReturn (cust : Nat) (total : JNum) : Fs.FsReturn :=
  { returnNumber := "RET-202503-0001", saleId := 1, customerId := cust
    date := sampleDate, totalAmount := total, reason := ""
    createdBy := "u", createdAt := sampleDate, updatedAt := sampleDate }

def mkFsPayment (saleId : Nat) (amount : JNum) : Fs.FsPayment :=
  { saleId := saleId, amount := amount, paymentMethod := "cash"
    date := sampleDate, reference := "", createdBy := "u"
    createdAt := sampleDate }

def mkFsProduct (stock : JNum) : Fs.FsProduct :=
  { name := "paint", category := "construction", colorOrBatch := ""
    price := 10, stock := stock, createdAt := sampleDate
    updatedAt := sampleDate }

def mkFsCustomer : Fs.FsCustomer :=
  { name := "c", phone := "", address := "", classification := "store"
    discountPercentage := 0, createdAt := sampleDate
    updatedAt := sampleDate }

def sampleFsSt : Fs.FsStore :=
  { customers := [(7, mkFsCustomer), (8, mkFsCustomer)]
    products := [(5, mkFsProduct 10)]
    sales := [(1, mkFsSale 7 30 { ms := 10, year := 2025, month := 3 }),
              (2, mkFsSale 9 99 { ms := 20, year := 2025, month := 3 })]
    saleItems := []
    returns := [(4, mkFsReturn 7 10)]
    returnItems := []
    payments := [(6, mkFsPayment 1 20)]
    customerBalances := []
    nextId := 100 }

/-! ## Claims about the ledger aggregator (C1, C6, C10) -/

/-- C1: after every call to `updateCustomerBalance(c)`, in either store
implementation, the stored `CustomerBalance` record for customer `c`
satisfies: `totalSales` is the sum of `totalAmount` over all sales whose
`customerId` is `c`, `totalReturns` the analogous sum over returns,
`totalPayments` the sum of `amount` over all payments whose `saleId` is one
of `c`'s sales, and `balance = totalSales - totalPayments - totalReturns`,
all computed from the full store state at the moment of the call (under the
store invariant that `c`'s sale ids are pairwise distinct). -/
theorem C1_updateCustomerBalance_correct
    (c : Nat) (now : JsDate) (st : Mem.MemStorage) (fst : Fs.FsStore)
    (hm : (Mem.claimSaleIds st c).Nodup)
    (hf : (Fs.claimSaleIds fst c).Nodup) :
    (SMap.get ((Mem.updateCustomerBalance c now st).2).customerBalancesMap c
        = some (Mem.updateCustomerBalance c now st).1
      ∧ (Mem.updateCustomerBalance c now st).1.totalSales = Mem.claimTotalSales st c
      ∧ (Mem.updateCustomerBalance c now st).1.totalReturns = Mem.claimTotalReturns st c
      ∧ (Mem.updateCustomerBalance c now st).1.totalPayments = Mem.claimTotalPayments st c
      ∧ (Mem.updateCustomerBalance c now st).1.balance
          = Mem.claimTotalSales st c - Mem.claimTotalPayments st c
            - Mem.claimTotalReturns st c)
    ∧ (∃ b : Fs.FsBalance,
        SMap.get (Fs.updateCustomerBalance c now fst).customerBalances c = some b
        ∧ b.totalSales = Fs.claimTotalSales fst c
        ∧ b.totalReturns = Fs.claimTotalReturns fst c
        ∧ b.totalPayments = Fs.claimTotalPayments fst c
        ∧ b.balance = Fs.claimTotalSales fst c - Fs.claimTotalPayments fst c
            - Fs.claimTotalReturns fst c) :=
  ⟨Mem.updCB_spec c now st hm, Fs.updCB_fs_spec c now fst hf⟩

theorem C1_witness :
    (Mem.claimSaleIds sampleMemSt 7).Nodup
    ∧ (Fs.claimSaleIds sampleFsSt 7).Nodup
    ∧ ((SMap.get ((Mem.updateCustomerBalance 7 sampleDate sampleMemSt).2).customerBalancesMap 7
          = some (Mem.updateCustomerBalance 7 sampleDate sampleMemSt).1
        ∧ (Mem.updateCustomerBalance 7 sampleDate sampleMemSt).1.totalSales
            = Mem.claimTotalSales sampleMemSt 7
        ∧ (Mem.updateCustomerBalance 7 sampleDate sampleMemSt).1.totalReturns
            = Mem.claimTotalReturns sampleMemSt 7
        ∧ (Mem.updateCustomerBalance 7 sampleDate sampleMemSt).1.totalPayments
            = Mem.claimTotalPayments sampleMemSt 7
        ∧ (Mem.updateCustomerBalance 7 sampleDate sampleMemSt).1.balance
            = Mem.claimTotalSales sampleMemSt 7 - Mem.claimTotalPayments sampleMemSt 7
              - Mem.claimTotalReturns sampleMemSt 7)
      ∧ (∃ b : Fs.FsBalance,
          SMap.get (Fs.updateCustomerBalance 7 sampleDate sampleFsSt).customerBalances 7
            = some b
          ∧ b.totalSales = Fs.claimTotalSales sampleFsSt 7
          ∧ b.totalReturns = Fs.claimTotalReturns sampleFsSt 7
          ∧ b.totalPayments = Fs.claimTotalPayments sampleFsSt 7
          ∧ b.balance = Fs.claimTotalSales sampleFsSt 7
              - Fs.claimTotalPayments sampleFsSt 7
              - Fs.claimTotalReturns sampleFsSt 7)) :=
  ⟨by decide, by decide,
    C1_updateCustomerBalance_correct 7 sampleDate sampleMemSt sampleFsSt
      (by decide) (by decide)⟩

/-- C6: calling `updateCustomerBalance` twice in a row for the same
customer, with no intervening mutation, stores the same `totalSales`,
`totalPayments`, `totalReturns`, and `balance` both times, in either store
implementation. -/
theorem C6_updateCustomerBalance_idempotent
    (c : Nat) (n1 n2 : JsDate) (st : Mem.MemStorage) (fst : Fs.FsStore) :
    ((Mem.updateCustomerBalance c n2 (Mem.updateCustomerBalance c n1 st).2).1.totalSales
        = (Mem.updateCustomerBalance c n1 st).1.totalSales
      ∧ (Mem.updateCustomerBalance c n2 (Mem.updateCustomerBalance c n1 st).2).1.totalPayments
        = (Mem.updateCustomerBalance c n1 st).1.totalPayments
      ∧ (Mem.updateCustomerBalance c n2 (Mem.updateCustomerBalance c n1 st).2).1.totalReturns
        = (Mem.updateCustomerBalance c n1 st).1.totalReturns
      ∧ (Mem.updateCustomerBalance c n2 (Mem.updateCustomerBalance c n1 st).2).1.balance
        = (Mem.updateCustomerBalance c n1 st).1.balance
      ∧ SMap.get ((Mem.updateCustomerBalance c n2 (Mem.updateCustomerBalance c n1 st).2).2).customerBalancesMap c
        = some (Mem.updateCustomerBalance c n2 (Mem.updateCustomerBalance c n1 st).2).1)
    ∧ (∃ b1 b2 : Fs.FsBalance,
        SMap.get (Fs.updateCustomerBalance c n1 fst).customerBalances c = some b1
        ∧ SMap.get (Fs.updateCustomerBalance c n2
            (Fs.updateCustomerBalance c n1 fst)).customerBalances c = some b2
        ∧ b2.totalSales = b1.totalSales
        ∧ b2.totalPayments = b1.totalPayments
        ∧ b2.totalReturns = b1.totalReturns
        ∧ b2.balance = b1.balance) := by
  constructor
  · exact ⟨rfl, rfl, rfl, rfl, by rw [Mem.updCB_balancesMap, SMap.get_set_self]⟩
  · obtain ⟨b1, hget1, e1, e2, e3, e4⟩ := Fs.updCB_stored c n1 fst
    obtain ⟨b2, hget2, f1, f2, f3, f4⟩ :=
      Fs.updCB_stored c n2 (Fs.updateCustomerBalance c n1 fst)
    simp only [Fs.getPaymentsBySale, Fs.updCB_sales, Fs.updCB_returns,
      Fs.updCB_payments] at f1 f2 f3
    simp only [Fs.getPaymentsBySale] at e3
    have hs : b2.totalSales = b1.totalSales := by rw [f1, e1]
    have hr : b2.totalReturns = b1.totalReturns := by rw [f2, e2]
    have hp : b2.totalPayments = b1.totalPayments := by rw [f3, e3]
    exact ⟨b1, b2, hget1, hget2, hs, hp, hr, by rw [f4, e4, hs, hp, hr]⟩

/-- C10: `updateCustomerBalance(c)` writes only the balance record keyed by
`c`: every other collection, and every other customer's balance record, is
unchanged, in either store implementation. -/
theorem C10_updateCustomerBalance_frame
    (c c' : Nat) (now : JsDate) (st : Mem.MemStorage) (fst : Fs.FsStore)
    (h : c' ≠ c) :
    (((Mem.updateCustomerBalance c now st).2).customersMap = st.customersMap
      ∧ ((Mem.updateCustomerBalance c now st).2).productsMap = st.productsMap
      ∧ ((Mem.updateCustomerBalance c now st).2).salesMap = st.salesMap
      ∧ ((Mem.updateCustomerBalance c now st).2).saleItemsMap = st.saleItemsMap
      ∧ ((Mem.updateCustomerBalance c now st).2).returnsMap = st.returnsMap
      ∧ ((Mem.updateCustomerBalance c now st).2).returnItemsMap = st.returnItemsMap
      ∧ ((Mem.updateCustomerBalance c now st).2).paymentsMap = st.paymentsMap
      ∧ SMap.get ((Mem.updateCustomerBalance c now st).2).customerBalancesMap c'
        = SMap.get st.customerBalancesMap c')
    ∧ ((Fs.updateCustomerBalance c now fst).customers = fst.customers
      ∧ (Fs.updateCustomerBalance c now fst).products = fst.products
      ∧ (Fs.updateCustomerBalance c now fst).sales = fst.sales
      ∧ (Fs.updateCustomerBalance c now fst).saleItems = fst.saleItems
      ∧ (Fs.updateCustomerBalance c now fst).returns = fst.returns
      ∧ (Fs.updateCustomerBalance c now fst).returnItems = fst.returnItems
      ∧ (Fs.updateCustomerBalance c now fst).payments = fst.payments
      ∧ SMap.get (Fs.updateCustomerBalance c now fst).customerBalances c'
        = SMap.get fst.customerBalances c') := by
  refine ⟨⟨rfl, rfl, rfl, rfl, rfl, rfl, rfl, ?_⟩,
    Fs.updCB_customers c now fst, Fs.updCB_products c now fst,
    Fs.updCB_sales c now fst, Fs.updCB_saleItems c now fst,
    Fs.updCB_returns c now fst, Fs.updCB_returnItems c now fst,
    Fs.updCB_payments c now fst, ?_⟩
  · rw [Mem.updCB_balancesMap]
    exact SMap.get_set_ne _ _ _ _ h
  · unfold Fs.updateCustomerBalance
    cases SMap.get fst.customerBalances c <;> exact SMap.get_set_ne _ _ _ _ h

theorem C10_witness :
    (8 : Nat) ≠ 7
    ∧ ((((Mem.updateCustomerBalance 7 sampleDate sampleMemSt).2).customersMap
          = sampleMemSt.customersMap
        ∧ ((Mem.updateCustomerBalance 7 sampleDate sampleMemSt).2).productsMap
          = sampleMemSt.productsMap
        ∧ ((Mem.updateCustomerBalance 7 sampleDate sampleMemSt).2).salesMap
          = sampleMemSt.salesMap
        ∧ ((Mem.updateCustomerBalance 7 sampleDate sampleMemSt).2).saleItemsMap
          = sampleMemSt.saleItemsMap
        ∧ ((Mem.updateCustomerBalance 7 sampleDate sampleMemSt).2).returnsMap
          = sampleMemSt.returnsMap
        ∧ ((Mem.updateCustomerBalance 7 sampleDate sampleMemSt).2).returnItemsMap
          = sampleMemSt.returnItemsMap
        ∧ ((Mem.updateCustomerBalance 7 sampleDate sampleMemSt).2).paymentsMap
          = sampleMemSt.paymentsMap
        ∧ SMap.get ((Mem.updateCustomerBalance 7 sampleDate sampleMemSt).2).customerBalancesMap 8
          = SMap.get sampleMemSt.customerBalancesMap 8)
      ∧ ((Fs.updateCustomerBalance 7 sampleDate sampleFsSt).customers = sampleFsSt.customers
        ∧ (Fs.updateCustomerBalance 7 sampleDate sampleFsSt).products = sampleFsSt.products
        ∧ (Fs.updateCustomerBalance 7 sampleDate sampleFsSt).sales = sampleFsSt.sales
        ∧ (Fs.updateCustomerBalance 7 sampleDate sampleFsSt).saleItems = sampleFsSt.saleItems
        ∧ (Fs.updateCustomerBalance 7 sampleDate sampleFsSt).returns = sampleFsSt.returns
        ∧ (Fs.updateCustomerBalance 7 sampleDate sampleFsSt).returnItems = sampleFsSt.returnItems
        ∧ (Fs.updateCustomerBalance 7 sampleDate sampleFsSt).payments = sampleFsSt.payments
        ∧ SMap.get (Fs.updateCustomerBalance 7 sampleDate sampleFsSt).customerBalances 8
          = SMap.get sampleFsSt.customerBalances 8)) :=
  ⟨by decide,
    C10_updateCustomerBalance_frame 7 8 sampleDate sampleMemSt sampleFsSt (by decide)⟩

/-! ## Claim C2: payment-status derivation on `createPayment` -/

namespace Mem

/-- The claim's "sum of amounts of all payments referencing s" over a store
state. -/
def claimPaymentsFor (st : MemStorage) (saleId : Nat) : JNum :=
  (((SMap.values st.paymentsMap).filter fun p =>
    decide (p.saleId = saleId)).map (·.amount)).sum

/-- `createPayment` on an existing sale: the stored status is classified
from the post-insertion sum of the sale's payments, and is never `overdue`
or `cancelled`. -/
theorem createPayment_status (ins : InsertPayment) (now : JsDate)
    (st : MemStorage) (s : Sale)
    (hs : SMap.get st.salesMap ins.saleId = some s)
    (hid : s.id = ins.saleId) :
    ∃ s', SMap.get ((createPayment ins now st).2).salesMap ins.saleId = some s'
      ∧ (s.totalAmount ≤ claimPaymentsFor (createPayment ins now st).2 ins.saleId
          → s'.paymentStatus = PaymentStatus.paid)
      ∧ (0 < claimPaymentsFor (createPayment ins now st).2 ins.saleId
          → claimPaymentsFor (createPayment ins now st).2 ins.saleId < s.totalAmount
          → s'.paymentStatus = PaymentStatus.partiallyPaid)
      ∧ (claimPaymentsFor (createPayment ins now st).2 ins.saleId ≤ 0
          → claimPaymentsFor (createPayment ins now st).2 ins.saleId < s.totalAmount
          → s'.paymentStatus = PaymentStatus.pending)
      ∧ s'.paymentStatus ≠ PaymentStatus.overdue
      ∧ s'.paymentStatus ≠ PaymentStatus.cancelled := by
  simp only [createPayment]
  rw [hs]
  simp only []
  set payment : Payment :=
    { id := st.paymentIdCounter, saleId := ins.saleId, amount := ins.amount
      paymentMethod := ins.paymentMethod, date := ins.date
      reference := ins.reference, createdBy := ins.createdBy
      createdAt := now } with hpay
  set st1 : MemStorage := { st with
    paymentIdCounter := st.paymentIdCounter + 1
    paymentsMap := SMap.set st.paymentsMap st.paymentIdCounter payment } with hst1
  set totalPaid : JNum :=
    (getPaymentsBySale st1 ins.saleId).foldl (fun sum p => sum + p.amount) 0
    with htp
  set paymentStatus :=
    if s.totalAmount ≤ totalPaid then PaymentStatus.paid
    else if 0 < totalPaid then PaymentStatus.partiallyPaid
    else PaymentStatus.pending with hstatus
  set updatedSale : Sale := { s with paymentStatus := paymentStatus, updatedAt := now }
    with hupd
  have hsalesMap :
      ((updateCustomerBalance s.customerId now
        { st1 with salesMap := SMap.set st1.salesMap s.id updatedSale }).2).salesMap
      = SMap.set st1.salesMap s.id updatedSale := updCB_salesMap _ _ _
  have hpayMap :
      ((updateCustomerBalance s.customerId now
        { st1 with salesMap := SMap.set st1.salesMap s.id updatedSale }).2).paymentsMap
      = st1.paymentsMap := updCB_paymentsMap _ _ _
  have hT : claimPaymentsFor ((updateCustomerBalance s.customerId now
        { st1 with salesMap := SMap.set st1.salesMap s.id updatedSale }).2) ins.saleId
      = totalPaid := by
    rw [htp, foldl_add_eq_sum Payment.amount, zero_add]
    unfold claimPaymentsFor getPaymentsBySale
    rw [hpayMap]
  clear_value totalPaid
  refine ⟨updatedSale, ?_, ?_, ?_, ?_, ?_, ?_⟩
  · rw [hsalesMap, hid, SMap.get_set_self]
  · intro hle
    rw [hT] at hle
    have : paymentStatus = PaymentStatus.paid := by rw [hstatus, if_pos hle]
    rw [hupd]
    exact this
  · intro hpos hlt
    rw [hT] at hpos hlt
    have hnle : ¬ (s.totalAmount ≤ totalPaid) := not_le.mpr hlt
    have : paymentStatus = PaymentStatus.partiallyPaid := by
      rw [hstatus, if_neg hnle, if_pos hpos]
    rw [hupd]
    exact this
  · intro hnp hlt
    rw [hT] at hnp hlt
    have hnle : ¬ (s.totalAmount ≤ totalPaid) := not_le.mpr hlt
    have hnpos : ¬ ((0 : JNum) < totalPaid) := not_lt.mpr hnp
    have : paymentStatus = PaymentStatus.pending := by
      rw [hstatus, if_neg hnle, if_neg hnpos]
    rw [hupd]
    exact this
  · show paymentStatus ≠ PaymentStatus.overdue
    rw [hstatus]
    split_ifs <;> simp
  · show paymentStatus ≠ PaymentStatus.cancelled
    rw [hstatus]
    split_ifs <;> simp

end Mem

namespace Fs

/-- The claim's "sum of amounts of all payments referencing s" over a
Firestore state. -/
def claimPaymentsFor (st : FsStore) (saleId : Nat) : JNum :=
  (((st.payments.map (·.2)).filter fun p =>
    decide (p.saleId = saleId)).map (·.amount)).sum

/-- The merged sale document written by `updateDoc`: the patched fields with
a fresh `updatedAt`. -/
def patchedSale (patch : FsSale → FsSale) (now : JsDate) (sale : FsSale) : FsSale :=
  { patch sale with updatedAt := now }

/-- `updateSale` with no replacement items on an existing sale merges the
patch, stamps `updatedAt`, and re-aggregates the (patched) sale's customer. -/
theorem updateSale_none_of_get (id : Nat) (patch : FsSale → FsSale)
    (now : JsDate) (st : FsStore) (sale : FsSale)
    (h : SMap.get st.sales id = some sale) :
    updateSale id patch none now st
      = updateCustomerBalance (patchedSale patch now sale).customerId now
          { st with sales := SMap.set st.sales id (patchedSale patch now sale) } := by
  unfold updateSale updateSaleDoc
  rw [h]
  simp only []
  rw [SMap.get_set_self]
  rfl

/-- `createPayment` on an existing sale document: the stored status is
classified from the post-insertion sum of the sale's payments, and is never
`overdue` or `cancelled`. -/
theorem createPayment_fs_status (data : FsPaymentInput) (now : JsDate)
    (st : FsStore) (sale : FsSale)
    (hs : SMap.get st.sales data.saleId = some sale) :
    ∃ s', SMap.get ((createPayment data now st).2).sales data.saleId = some s'
      ∧ (sale.totalAmount ≤ claimPaymentsFor (createPayment data now st).2 data.saleId
          → s'.paymentStatus = PaymentStatus.paid)
      ∧ (0 < claimPaymentsFor (createPayment data now st).2 data.saleId
          → claimPaymentsFor (createPayment data now st).2 data.saleId < sale.totalAmount
          → s'.paymentStatus = PaymentStatus.partiallyPaid)
      ∧ (claimPaymentsFor (createPayment data now st).2 data.saleId ≤ 0
          → claimPaymentsFor (createPayment data now st).2 data.saleId < sale.totalAmount
          → s'.paymentStatus = PaymentStatus.pending)
      ∧ s'.paymentStatus ≠ PaymentStatus.overdue
      ∧ s'.paymentStatus ≠ PaymentStatus.cancelled := by
  simp only [createPayment]
  rw [hs]
  simp only []
  set payment : FsPayment :=
    { saleId := data.saleId, amount := data.amount
      paymentMethod := data.paymentMethod, date := data.date
      reference := data.reference, createdBy := data.createdBy
      createdAt := now } with hpay
  set st1 : FsStore := { st with
    payments := SMap.set st.payments st.nextId payment
    nextId := st.nextId + 1 } with hst1
  set totalPaid : JNum :=
    (getPaymentsBySale st1 data.saleId).foldl (fun sum p => sum + p.amount) 0
    with htp
  set paymentStatus :=
    if sale.totalAmount ≤ totalPaid then PaymentStatus.paid
    else if 0 < totalPaid then PaymentStatus.partiallyPaid
    else PaymentStatus.pending with hstatus
  rw [updateSale_none_of_get data.saleId _ now st1 sale hs]
  set sale' : FsSale :=
    patchedSale (fun s => { s with paymentStatus := paymentStatus }) now sale
    with hsale'
  set st2 : FsStore := { st1 with sales := SMap.set st1.sales data.saleId sale' }
    with hst2
  have hsales : (updateCustomerBalance sale.customerId now
      (updateCustomerBalance sale'.customerId now st2)).sales = st2.sales := by
    rw [updCB_sales, updCB_sales]
  have hpays : (updateCustomerBalance sale.customerId now
      (updateCustomerBalance sale'.customerId now st2)).payments = st1.payments := by
    rw [updCB_payments, updCB_payments]
  have hT : claimPaymentsFor (updateCustomerBalance sale.customerId now
      (updateCustomerBalance sale'.customerId now st2)) data.saleId = totalPaid := by
    unfold claimPaymentsFor
    rw [hpays, htp]
    unfold getPaymentsBySale
    rw [foldl_add_eq_sum FsPayment.amount, zero_add,
      filter_snd_comm st1.payments (fun p => decide (p.saleId = data.saleId))]
  clear_value totalPaid
  refine ⟨sale', ?_, ?_, ?_, ?_, ?_, ?_⟩
  · rw [hsales, hst2]
    exact SMap.get_set_self _ _ _
  · intro hle
    rw [hT] at hle
    have : paymentStatus = PaymentStatus.paid := by rw [hstatus, if_pos hle]
    rw [hsale']
    exact this
  · intro hpos hlt
    rw [hT] at hpos hlt
    have hnle : ¬ (sale.totalAmount ≤ totalPaid) := not_le.mpr hlt
    have : paymentStatus = PaymentStatus.partiallyPaid := by
      rw [hstatus, if_neg hnle, if_pos hpos]
    rw [hsale']
    exact this
  · intro hnp hlt
    rw [hT] at hnp hlt
    have hnle : ¬ (sale.totalAmount ≤ totalPaid) := not_le.mpr hlt
    have hnpos : ¬ ((0 : JNum) < totalPaid) := not_lt.mpr hnp
    have : paymentStatus = PaymentStatus.pending := by
      rw [hstatus, if_neg hnle, if_neg hnpos]
    rw [hsale']
    exact this
  · show paymentStatus ≠ PaymentStatus.overdue
    rw [hstatus]
    split_ifs <;> simp
  · show paymentStatus ≠ PaymentStatus.cancelled
    rw [hstatus]
    split_ifs <;> simp

end Fs

def sampleMemPayIns : Mem.InsertPayment :=
  { saleId := 1, amount := 10, paymentMethod := "cash", date := sampleDate
    reference := "", createdBy := "u" }

def sampleFsPayIns : Fs.FsPaymentInput :=
  { saleId := 1, amount := 10, paymentMethod := "cash", date := sampleDate
    reference := "", createdBy := "u" }

/-- C2: for every existing sale and every `createPayment` referencing it, in
either store implementation, the stored status afterwards is `paid` when the
sum of all payments referencing the sale (including the new one) reaches the
sale total, `partially_paid` when that sum is strictly between 0 and the
total, and `pending` otherwise; it is never set to `overdue` or `cancelled`. -/
theorem C2_createPayment_status
    (ins : Mem.InsertPayment) (now : JsDate) (st : Mem.MemStorage) (s : Mem.Sale)
    (fin : Fs.FsPaymentInput) (fnow : JsDate) (fst : Fs.FsStore) (fsale : Fs.FsSale)
    (hs : SMap.get st.salesMap ins.saleId = some s)
    (hid : s.id = ins.saleId)
    (hfs : SMap.get fst.sales fin.saleId = some fsale) :
    (∃ s', SMap.get ((Mem.createPayment ins now st).2).salesMap ins.saleId = some s'
      ∧ (s.totalAmount ≤ Mem.claimPaymentsFor (Mem.createPayment ins now st).2 ins.saleId
          → s'.paymentStatus = PaymentStatus.paid)
      ∧ (0 < Mem.claimPaymentsFor (Mem.createPayment ins now st).2 ins.saleId
          → Mem.claimPaymentsFor (Mem.createPayment ins now st).2 ins.saleId < s.totalAmount
          → s'.paymentStatus = PaymentStatus.partiallyPaid)
      ∧ (Mem.claimPaymentsFor (Mem.createPayment ins now st).2 ins.saleId ≤ 0
          → Mem.claimPaymentsFor (Mem.createPayment ins now st).2 ins.saleId < s.totalAmount
          → s'.paymentStatus = PaymentStatus.pending)
      ∧ s'.paymentStatus ≠ PaymentStatus.overdue
      ∧ s'.paymentStatus ≠ PaymentStatus.cancelled)
    ∧ (∃ s', SMap.get ((Fs.createPayment fin fnow fst).2).sales fin.saleId = some s'
      ∧ (fsale.totalAmount ≤ Fs.claimPaymentsFor (Fs.createPayment fin fnow fst).2 fin.saleId
          → s'.paymentStatus = PaymentStatus.paid)
      ∧ (0 < Fs.claimPaymentsFor (Fs.createPayment fin fnow fst).2 fin.saleId
          → Fs.claimPaymentsFor (Fs.createPayment fin fnow fst).2 fin.saleId < fsale.totalAmount
          → s'.paymentStatus = PaymentStatus.partiallyPaid)
      ∧ (Fs.claimPaymentsFor (Fs.createPayment fin fnow fst).2 fin.saleId ≤ 0
          → Fs.claimPaymentsFor (Fs.createPayment fin fnow fst).2 fin.saleId < fsale.totalAmount
          → s'.paymentStatus = PaymentStatus.pending)
      ∧ s'.paymentStatus ≠ PaymentStatus.overdue
      ∧ s'.paymentStatus ≠ PaymentStatus.cancelled) :=
  ⟨Mem.createPayment_status ins now st s hs hid,
   Fs.createPayment_fs_status fin fnow fst fsale hfs⟩

theorem C2_witness :
    SMap.get sampleMemSt.salesMap sampleMemPayIns.saleId = some (mkMemSale 1 7 30)
    ∧ (mkMemSale 1 7 30).id = sampleMemPayIns.saleId
    ∧ SMap.get sampleFsSt.sales sampleFsPayIns.saleId
        = some (mkFsSale 7 30 { ms := 10, year := 2025, month := 3 })
    ∧ ((∃ s', SMap.get ((Mem.createPayment sampleMemPayIns sampleDate2 sampleMemSt).2).salesMap
          sampleMemPayIns.saleId = some s'
        ∧ ((mkMemSale 1 7 30).totalAmount
            ≤ Mem.claimPaymentsFor (Mem.createPayment sampleMemPayIns sampleDate2 sampleMemSt).2
                sampleMemPayIns.saleId
            → s'.paymentStatus = PaymentStatus.paid)
        ∧ (0 < Mem.claimPaymentsFor (Mem.createPayment sampleMemPayIns sampleDate2 sampleMemSt).2
                sampleMemPayIns.saleId
            → Mem.claimPaymentsFor (Mem.createPayment sampleMemPayIns sampleDate2 sampleMemSt).2
                sampleMemPayIns.saleId < (mkMemSale 1 7 30).totalAmount
            → s'.paymentStatus = PaymentStatus.partiallyPaid)
        ∧ (Mem.claimPaymentsFor (Mem.createPayment sampleMemPayIns sampleDate2 sampleMemSt).2
              sampleMemPayIns.saleId ≤ 0
            → Mem.claimPaymentsFor (Mem.createPayment sampleMemPayIns sampleDate2 sampleMemSt).2
                sampleMemPayIns.saleId < (mkMemSale 1 7 30).totalAmount
            → s'.paymentStatus = PaymentStatus.pending)
        ∧ s'.paymentStatus ≠ PaymentStatus.overdue
        ∧ s'.paymentStatus ≠ PaymentStatus.cancelled)
      ∧ (∃ s', SMap.get ((Fs.createPayment sampleFsPayIns sampleDate2 sampleFsSt).2).sales
            sampleFsPayIns.saleId = some s'
        ∧ ((mkFsSale 7 30 { ms := 10, year := 2025, month := 3 }).totalAmount
            ≤ Fs.claimPaymentsFor (Fs.createPayment sampleFsPayIns sampleDate2 sampleFsSt).2
                sampleFsPayIns.saleId
            → s'.paymentStatus = PaymentStatus.paid)
        ∧ (0 < Fs.claimPaymentsFor (Fs.createPayment sampleFsPayIns sampleDate2 sampleFsSt).2
                sampleFsPayIns.saleId
            → Fs.claimPaymentsFor (Fs.createPayment sampleFsPayIns sampleDate2 sampleFsSt).2
                sampleFsPayIns.saleId
              < (mkFsSale 7 30 { ms := 10, year := 2025, month := 3 }).totalAmount
            → s'.paymentStatus = PaymentStatus.partiallyPaid)
        ∧ (Fs.claimPaymentsFor (Fs.createPayment sampleFsPayIns sampleDate2 sampleFsSt).2
              sampleFsPayIns.saleId ≤ 0
            → Fs.claimPaymentsFor (Fs.createPayment sampleFsPayIns sampleDate2 sampleFsSt).2
                sampleFsPayIns.saleId
              < (mkFsSale 7 30 { ms := 10, year := 2025, month := 3 }).totalAmount
            → s'.paymentStatus = PaymentStatus.pending)
        ∧ s'.paymentStatus ≠ PaymentStatus.overdue
        ∧ s'.paymentStatus ≠ PaymentStatus.cancelled)) :=
  ⟨by decide, by decide, by decide,
    C2_createPayment_status sampleMemPayIns sampleDate2 sampleMemSt (mkMemSale 1 7 30)
      sampleFsPayIns sampleDate2 sampleFsSt (mkFsSale 7 30 { ms := 10, year := 2025, month := 3 })
      (by decide) (by decide) (by decide)⟩

/-! ## Claims C4, C8, C9: inventory adjustment and missing-reference behaviour -/

namespace Mem

/-- `addSaleItem` on an existing product: the stock decreases by exactly the
item quantity (and `updatedAt` is stamped). -/
theorem addSaleItem_stock (ins : InsertSaleItem) (now : JsDate)
    (st : MemStorage) (p : Product)
    (hp : SMap.get st.productsMap ins.productId = some p)
    (hid : p.id = ins.productId) :
    SMap.get ((addSaleItem ins now st).2).productsMap ins.productId
      = some { p with stock := p.stock - ins.quantity, updatedAt := now } := by
  simp only [addSaleItem]
  rw [hp]
  simp only []
  rw [hid, SMap.get_set_self]

/-- `addReturnItem` on an existing product: the stock increases by exactly
the item quantity. -/
theorem addReturnItem_stock (ins : InsertReturnItem) (now : JsDate)
    (st : MemStorage) (p : Product)
    (hp : SMap.get st.productsMap ins.productId = some p)
    (hid : p.id = ins.productId) :
    SMap.get ((addReturnItem ins now st).2).productsMap ins.productId
      = some { p with stock := p.stock + ins.quantity, updatedAt := now } := by
  simp only [addReturnItem]
  rw [hp]
  simp only []
  rw [hid, SMap.get_set_self]

/-- `addSaleItem` with no matching product: the item is still recorded under
its sale, the returned item carries the fresh id and the insert fields, and
the products map is completely unchanged. -/
theorem addSaleItem_missing (ins : InsertSaleItem) (now : JsDate)
    (st : MemStorage)
    (hp : SMap.get st.productsMap ins.productId = none) :
    (addSaleItem ins now st).1
        = { id := st.saleItemIdCounter, saleId := ins.saleId
            productId := ins.productId, quantity := ins.quantity
            unitPrice := ins.unitPrice, totalPrice := ins.totalPrice }
      ∧ ((addSaleItem ins now st).2).productsMap = st.productsMap
      ∧ SMap.get ((addSaleItem ins now st).2).saleItemsMap ins.saleId
        = some ((SMap.get st.saleItemsMap ins.saleId).getD []
            ++ [(addSaleItem ins now st).1]) := by
  simp only [addSaleItem]
  rw [hp]
  exact ⟨rfl, rfl, SMap.get_set_self _ _ _⟩

/-- `createPayment` whose `saleId` matches no sale: the payment is persisted
and returned, and the sales and balance collections are untouched. -/
theorem createPayment_missing (ins : InsertPayment) (now : JsDate)
    (st : MemStorage)
    (hs : SMap.get st.salesMap ins.saleId = none) :
    (createPayment ins now st).1
        = { id := st.paymentIdCounter, saleId := ins.saleId
            amount := ins.amount, paymentMethod := ins.paymentMethod
            date := ins.date, reference := ins.reference
            createdBy := ins.createdBy, createdAt := now }
      ∧ SMap.get ((createPayment ins now st).2).paymentsMap st.paymentIdCounter
        = some (createPayment ins now st).1
      ∧ ((createPayment ins now st).2).salesMap = st.salesMap
      ∧ ((createPayment ins now st).2).customerBalancesMap
        = st.customerBalancesMap := by
  simp only [createPayment]
  rw [hs]
  exact ⟨rfl, SMap.get_set_self _ _ _, rfl, rfl⟩

end Mem

namespace Fs

theorem updateProduct_sales (id : Nat) (patch : FsProduct → FsProduct)
    (now : JsDate) (st : FsStore) :
    (updateProduct id patch now st).sales = st.sales := by
  unfold updateProduct
  cases SMap.get st.products id <;> rfl

theorem updateProduct_saleItems (id : Nat) (patch : FsProduct → FsProduct)
    (now : JsDate) (st : FsStore) :
    (updateProduct id patch now st).saleItems = st.saleItems := by
  unfold updateProduct
  cases SMap.get st.products id <;> rfl

theorem updateProduct_payments (id : Nat) (patch : FsProduct → FsProduct)
    (now : JsDate) (st : FsStore) :
    (updateProduct id patch now st).payments = st.payments := by
  unfold updateProduct
  cases SMap.get st.products id <;> rfl

theorem updateProduct_nextId (id : Nat) (patch : FsProduct → FsProduct)
    (now : JsDate) (st : FsStore) :
    (updateProduct id patch now st).nextId = st.nextId := by
  unfold updateProduct
  cases SMap.get st.products id <;> rfl

theorem applyOne_sales (d : Nat) (now : JsDate) (st : FsStore) (it : FsSaleItem) :
    (applyOneSaleItem d now st it).sales = st.sales := by
  simp only [applyOneSaleItem]
  cases SMap.get st.products it.productId with
  | none => rfl
  | some product => rw [updateProduct_sales]

theorem applySaleItems_sales (saleDocId : Nat) (its : List FsSaleItem)
    (now : JsDate) (st : FsStore) :
    (applySaleItems saleDocId its now st).sales = st.sales := by
  induction its generalizing st with
  | nil => rfl
  | cons it rest ih =>
    show (applySaleItems saleDocId rest now (applyOneSaleItem saleDocId now st it)).sales
      = st.sales
    rw [ih, applyOne_sales]

/-- The merged product document written by `updateDoc`. -/
def patchedProduct (patch : FsProduct → FsProduct) (now : JsDate)
    (p : FsProduct) : FsProduct :=
  { patch p with updatedAt := now }

theorem updateProduct_get_self (id : Nat) (patch : FsProduct → FsProduct)
    (now : JsDate) (st : FsStore) (p : FsProduct)
    (hp : SMap.get st.products id = some p) :
    SMap.get (updateProduct id patch now st).products id
      = some (patchedProduct patch now p) := by
  unfold updateProduct
  rw [hp]
  exact SMap.get_set_self _ _ _

theorem updateProduct_get_ne (id : Nat) (patch : FsProduct → FsProduct)
    (now : JsDate) (st : FsStore) (pid : Nat) (hne : pid ≠ id) :
    SMap.get (updateProduct id patch now st).products pid
      = SMap.get st.products pid := by
  unfold updateProduct
  cases SMap.get st.products id with
  | none => rfl
  | some p => exact SMap.get_set_ne _ _ _ _ hne

theorem applyOne_stock (d : Nat) (now : JsDate) (st : FsStore)
    (it : FsSaleItem) (pid : Nat) (prod : FsProduct)
    (hp : SMap.get st.products pid = some prod) :
    ∃ prod', SMap.get (applyOneSaleItem d now st it).products pid = some prod'
      ∧ prod'.stock = prod.stock
          - (if it.productId = pid then it.quantity else 0) := by
  simp only [applyOneSaleItem]
  by_cases hc : it.productId = pid
  · subst hc
    rw [hp]
    refine ⟨_, updateProduct_get_self _ _ _ _ _ hp, ?_⟩
    rw [if_pos rfl]
    rfl
  · cases hq : SMap.get st.products it.productId with
    | none => exact ⟨prod, hp, by rw [if_neg hc, sub_zero]⟩
    | some other =>
      refine ⟨prod, ?_, by rw [if_neg hc, sub_zero]⟩
      rw [updateProduct_get_ne _ _ _ _ _ (fun hh => hc hh.symm)]
      exact hp

theorem applySaleItems_stock (d : Nat) (its : List FsSaleItem) (now : JsDate)
    (st : FsStore) (pid : Nat) (prod : FsProduct)
    (hp : SMap.get st.products pid = some prod) :
    ∃ prod', SMap.get (applySaleItems d its now st).products pid = some prod'
      ∧ prod'.stock = prod.stock
          - ((its.filter fun it => decide (it.productId = pid)).map (·.quantity)).sum := by
  induction its generalizing st prod with
  | nil => exact ⟨prod, hp, by simp⟩
  | cons it rest ih =>
    obtain ⟨p1, hp1, hs1⟩ := applyOne_stock d now st it pid prod hp
    obtain ⟨p2, hp2, hs2⟩ := ih (applyOneSaleItem d now st it) p1 hp1
    refine ⟨p2, hp2, ?_⟩
    rw [hs2, hs1]
    by_cases hc : it.productId = pid
    · rw [if_pos hc]
      simp only [List.filter_cons, decide_eq_true_eq, if_pos hc, List.map_cons,
        List.sum_cons]
      ring
    · rw [if_neg hc, sub_zero]
      have : decide (it.productId = pid) = false := by simp [hc]
      simp only [List.filter_cons, this]
      simp

theorem revertOne_stock (d : Nat) (now : JsDate) (st : FsStore)
    (e : Nat × FsSaleItem) (pid : Nat) (prod : FsProduct)
    (hp : SMap.get st.products pid = some prod) :
    ∃ prod', SMap.get (revertOneItem d now st e).products pid = some prod'
      ∧ prod'.stock = prod.stock
          + (if e.2.productId = pid then e.2.quantity else 0) := by
  simp only [revertOneItem]
  by_cases hc : e.2.productId = pid
  · subst hc
    rw [hp]
    refine ⟨_, updateProduct_get_self _ _ _ _ _ hp, ?_⟩
    rw [if_pos rfl]
    rfl
  · cases hq : SMap.get st.products e.2.productId with
    | none => exact ⟨prod, hp, by rw [if_neg hc, add_zero]⟩
    | some other =>
      refine ⟨prod, ?_, by rw [if_neg hc, add_zero]⟩
      rw [updateProduct_get_ne _ _ _ _ _ (fun hh => hc hh.symm)]
      exact hp

theorem revertOldItems_stock (d : Nat) (snapshot : SMap FsSaleItem)
    (now : JsDate) (st : FsStore) (pid : Nat) (prod : FsProduct)
    (hp : SMap.get st.products pid = some prod) :
    ∃ prod', SMap.get (revertOldItems d snapshot now st).products pid = some prod'
      ∧ prod'.stock = prod.stock
          + ((snapshot.filter fun e => decide (e.2.productId = pid)).map
              (·.2.quantity)).sum := by
  induction snapshot generalizing st prod with
  | nil => exact ⟨prod, hp, by simp⟩
  | cons e rest ih =>
    obtain ⟨p1, hp1, hs1⟩ := revertOne_stock d now st e pid prod hp
    obtain ⟨p2, hp2, hs2⟩ := ih (revertOneItem d now st e) p1 hp1
    refine ⟨p2, hp2, ?_⟩
    rw [hs2, hs1]
    by_cases hc : e.2.productId = pid
    · rw [if_pos hc]
      simp only [List.filter_cons, decide_eq_true_eq, if_pos hc, List.map_cons,
        List.sum_cons]
      ring
    · rw [if_neg hc, add_zero]
      have : decide (e.2.productId = pid) = false := by simp [hc]
      simp only [List.filter_cons, this]
      simp

theorem revertOne_sales (d : Nat) (now : JsDate) (st : FsStore)
    (e : Nat × FsSaleItem) :
    (revertOneItem d now st e).sales = st.sales := by
  simp only [revertOneItem]
  cases SMap.get st.products e.2.productId with
  | none => rfl
  | some product => rw [updateProduct_sales]

theorem revertOldItems_sales (d : Nat) (snapshot : SMap FsSaleItem)
    (now : JsDate) (st : FsStore) :
    (revertOldItems d snapshot now st).sales = st.sales := by
  induction snapshot generalizing st with
  | nil => rfl
  | cons e rest ih =>
    show (revertOldItems d rest now (revertOneItem d now st e)).sales = st.sales
    rw [ih, revertOne_sales]

/-- The store after `updateDoc` merges a patch onto sale `id`. -/
def saleDocSetState (id : Nat) (patch : FsSale → FsSale) (now : JsDate)
    (sale : FsSale) (st : FsStore) : FsStore :=
  { st with sales := SMap.set st.sales id (patchedSale patch now sale) }

theorem updateSaleDoc_of_get (id : Nat) (patch : FsSale → FsSale)
    (now : JsDate) (st : FsStore) (sale : FsSale)
    (h : SMap.get st.sales id = some sale) :
    updateSaleDoc id patch now st = saleDocSetState id patch now sale st := by
  unfold updateSaleDoc saleDocSetState
  rw [h]
  rfl

theorem applyOne_products_missing (d : Nat) (now : JsDate) (st : FsStore)
    (it : FsSaleItem)
    (h : SMap.get st.products it.productId = none) :
    (applyOneSaleItem d now st it).products = st.products := by
  simp only [applyOneSaleItem]
  rw [h]

theorem applySaleItems_products_missing (d : Nat) (its : List FsSaleItem)
    (now : JsDate) (st : FsStore)
    (h : ∀ it ∈ its, SMap.get st.products it.productId = none) :
    (applySaleItems d its now st).products = st.products := by
  induction its generalizing st with
  | nil => rfl
  | cons it rest ih =>
    show (applySaleItems d rest now (applyOneSaleItem d now st it)).products
      = st.products
    have h1 : (applyOneSaleItem d now st it).products = st.products :=
      applyOne_products_missing d now st it (h it (by simp))
    rw [ih (applyOneSaleItem d now st it) (by intro x hx; rw [h1]; exact h x (by simp [hx]))]
    exact h1

theorem applyOne_items (d : Nat) (now : JsDate) (st : FsStore) (it : FsSaleItem)
    (hk : ∀ k ∈ SMap.keys ((SMap.get st.saleItems d).getD []), k < st.nextId) :
    (SMap.get (applyOneSaleItem d now st it).saleItems d).getD []
        = ((SMap.get st.saleItems d).getD []) ++ [(st.nextId, it)]
    ∧ (applyOneSaleItem d now st it).nextId = st.nextId + 1 := by
  have hsub : SMap.set ((SMap.get st.saleItems d).getD []) st.nextId it
      = ((SMap.get st.saleItems d).getD []) ++ [(st.nextId, it)] :=
    SMap.set_eq_append _ _ _ (fun hmem => absurd (hk _ hmem) (lt_irrefl _))
  simp only [applyOneSaleItem]
  cases hq : SMap.get st.products it.productId with
  | none =>
    constructor
    · rw [SMap.get_set_self]
      exact hsub
    · rfl
  | some product =>
    constructor
    · rw [updateProduct_saleItems, SMap.get_set_self]
      exact hsub
    · rw [updateProduct_nextId]

theorem applySaleItems_items (d : Nat) (its : List FsSaleItem) (now : JsDate)
    (st : FsStore)
    (hk : ∀ k ∈ SMap.keys ((SMap.get st.saleItems d).getD []), k < st.nextId) :
    ((SMap.get (applySaleItems d its now st).saleItems d).getD []).map (·.2)
      = (((SMap.get st.saleItems d).getD []).map (·.2)) ++ its := by
  induction its generalizing st with
  | nil => simp [applySaleItems]
  | cons it rest ih =>
    have h1 := applyOne_items d now st it hk
    have hk' : ∀ k ∈ SMap.keys
        ((SMap.get (applyOneSaleItem d now st it).saleItems d).getD []),
        k < (applyOneSaleItem d now st it).nextId := by
      rw [h1.1, h1.2]
      intro k hkmem
      simp only [SMap.keys, List.map_append, List.mem_append, List.map_cons,
        List.mem_singleton] at hkmem
      rcases hkmem with hkm | hkm
      · exact lt_trans (hk k hkm) (Nat.lt_succ_self _)
      · simp only [List.map_nil, List.mem_cons, List.not_mem_nil, or_false] at hkm
        omega
    show (((applySaleItems d rest now (applyOneSaleItem d now st it)).saleItems.get d).getD []).map (·.2)
      = _
    rw [ih _ hk', h1.1]
    simp

/-- The intermediate state of `createSale` right after the sale document is
added (before the item loop and the balance aggregation). -/
def saleInsertState (data : FsSaleInput) (now : JsDate) (st : FsStore) : FsStore :=
  { st with
    sales := SMap.set st.sales st.nextId
      (newSaleDoc data
        (mkInvoiceNumber "INV-" now.year now.month (lastInvoiceVal st.sales + 1)) now)
    nextId := st.nextId + 1 }

/-- `createSale` on an existing product: the stock decreases by the summed
quantities of the matching items. -/
theorem createSale_stock (data : FsSaleInput) (its : List FsSaleItem)
    (now : JsDate) (st : FsStore) (pid : Nat) (prod : FsProduct)
    (hp : SMap.get st.products pid = some prod) :
    ∃ prod', SMap.get ((createSale data its now st).2).products pid = some prod'
      ∧ prod'.stock = prod.stock
          - ((its.filter fun it => decide (it.productId = pid)).map (·.quantity)).sum := by
  simp only [createSale]
  obtain ⟨p', hp', hs'⟩ := applySaleItems_stock st.nextId its now
    (saleInsertState data now st) pid prod hp
  refine ⟨p', ?_, hs'⟩
  rw [updCB_products]
  exact hp'

/-- `createSale` whose items all reference missing products: the item
documents are still recorded under the new sale and the products collection
is completely unchanged. -/
theorem createSale_missing (data : FsSaleInput) (its : List FsSaleItem)
    (now : JsDate) (st : FsStore)
    (hmiss : ∀ it ∈ its, SMap.get st.products it.productId = none)
    (hfresh : SMap.get st.saleItems st.nextId = none) :
    ((createSale data its now st).2).products = st.products
    ∧ ((SMap.get ((createSale data its now st).2).saleItems
        (createSale data its now st).1).getD []).map (·.2) = its := by
  have hfresh' : SMap.get (saleInsertState data now st).saleItems st.nextId = none :=
    hfresh
  have hk : ∀ k ∈ SMap.keys
      ((SMap.get (saleInsertState data now st).saleItems st.nextId).getD []),
      k < (saleInsertState data now st).nextId := by
    intro k hkm
    rw [hfresh'] at hkm
    simp [SMap.keys] at hkm
  have happ := applySaleItems_items st.nextId its now (saleInsertState data now st) hk
  rw [hfresh'] at happ
  simp only [Option.getD_none, List.map_nil, List.nil_append] at happ
  constructor
  · simp only [createSale]
    rw [updCB_products]
    exact applySaleItems_products_missing _ _ _ _ hmiss
  · simp only [createSale]
    rw [updCB_saleItems]
    exact happ

/-- `createPayment` whose `saleId` matches no sale document: the payment is
persisted and its id returned, and the sales and balance collections are
untouched. -/
theorem createPayment_fs_missing (data : FsPaymentInput) (now : JsDate)
    (st : FsStore)
    (h : SMap.get st.sales data.saleId = none) :
    (createPayment data now st).1 = st.nextId
    ∧ (SMap.get ((createPayment data now st).2).payments st.nextId).isSome = true
    ∧ (SMap.get ((createPayment data now st).2).payments st.nextId).map
        (fun p => (p.saleId, p.amount, p.createdAt))
      = some (data.saleId, data.amount, now)
    ∧ ((createPayment data now st).2).sales = st.sales
    ∧ ((createPayment data now st).2).customerBalances = st.customerBalances := by
  simp only [createPayment]
  rw [h]
  refine ⟨rfl, ?_, ?_, rfl, rfl⟩
  · rw [SMap.get_set_self]
    rfl
  · rw [SMap.get_set_self]
    rfl

/-- `updateSale` with a replacement item list on an existing sale: for a
product present at the start of the call, the final stock is the initial
stock plus the summed old-item quantities minus the summed new-item
quantities (for the items matching that product). -/
theorem updateSale_items_stock (id : Nat) (patch : FsSale → FsSale)
    (newItems : List FsSaleItem) (now : JsDate) (st : FsStore)
    (sale : FsSale) (pid : Nat) (prod : FsProduct)
    (hs : SMap.get st.sales id = some sale)
    (hp : SMap.get st.products pid = some prod) :
    ∃ prod', SMap.get (updateSale id patch (some newItems) now st).products pid
        = some prod'
      ∧ prod'.stock = prod.stock
          + ((((SMap.get st.saleItems id).getD []).filter fun e =>
              decide (e.2.productId = pid)).map (·.2.quantity)).sum
          - ((newItems.filter fun it =>
              decide (it.productId = pid)).map (·.quantity)).sum := by
  simp only [updateSale]
  rw [updateSaleDoc_of_get id patch now st sale hs]
  rw [show SMap.get (saleDocSetState id patch now sale st).sales id
    = some (patchedSale patch now sale) from SMap.get_set_self _ _ _]
  simp only []
  have hsnap : (SMap.get (saleDocSetState id patch now sale st).saleItems id).getD []
      = (SMap.get st.saleItems id).getD [] := rfl
  rw [hsnap]
  obtain ⟨p1, hp1, hs1⟩ := revertOldItems_stock id
    ((SMap.get st.saleItems id).getD []) now
    (saleDocSetState id patch now sale st) pid prod hp
  obtain ⟨p2, hp2, hs2⟩ := applySaleItems_stock id newItems now
    (revertOldItems id ((SMap.get st.saleItems id).getD []) now
      (saleDocSetState id patch now sale st)) pid p1 hp1
  have hsales2 : (applySaleItems id newItems now
      (revertOldItems id ((SMap.get st.saleItems id).getD []) now
        (saleDocSetState id patch now sale st))).sales
      = SMap.set st.sales id (patchedSale patch now sale) := by
    rw [applySaleItems_sales, revertOldItems_sales]
    rfl
  rw [show SMap.get (applySaleItems id newItems now
      (revertOldItems id ((SMap.get st.saleItems id).getD []) now
        (saleDocSetState id patch now sale st))).sales id
    = some (patchedSale patch now sale) from by
      rw [hsales2]; exact SMap.get_set_self _ _ _]
  refine ⟨p2, ?_, ?_⟩
  · rw [updCB_products]
    exact hp2
  · rw [hs2, hs1]

end Fs

/-! ## Claims C4, C5, C7, C8, C9 -/

def c4NegSt : Mem.MemStorage :=
  { Mem.emptyStorage with productsMap := [(5, mkMemProduct 5 1)] }

def c4NegIns : Mem.InsertSaleItem :=
  { saleId := 1, productId := 5, quantity := 5, unitPrice := 10, totalPrice := 50 }

def sampleFsSaleIns : Fs.FsSaleInput :=
  { invoiceNumber := "", customerId := 7, date := sampleDate, subTotal := 40
    discountAmount := 0, totalAmount := 40, paymentMethod := "cash"
    paymentStatus := PaymentStatus.pending, notes := "", createdBy := "u" }

def sampleFsItem (pid : Nat) (qty : JNum) : Fs.FsSaleItem :=
  { productId := pid, quantity := qty, unitPrice := 10, totalPrice := 10 * qty }

/-- C4: a sale line item on an existing product decrements its stored stock
by exactly the item quantity, a return line item increments it by exactly
the item quantity, stock has no lower bound at zero (the concrete run in the
last two conjuncts drives it to -4 and the operation still returns
normally), and the Firestore `createSale` item loop decrements by the summed
matching quantities. -/
theorem C4_stock_adjustment
    (insS : Mem.InsertSaleItem) (insR : Mem.InsertReturnItem) (now : JsDate)
    (st : Mem.MemStorage) (p r : Mem.Product)
    (data : Fs.FsSaleInput) (fits : List Fs.FsSaleItem) (fnow : JsDate)
    (fst : Fs.FsStore) (pid : Nat) (fp : Fs.FsProduct)
    (hpS : SMap.get st.productsMap insS.productId = some p)
    (hidS : p.id = insS.productId)
    (hpR : SMap.get st.productsMap insR.productId = some r)
    (hidR : r.id = insR.productId)
    (hfp : SMap.get fst.products pid = some fp) :
    SMap.get ((Mem.addSaleItem insS now st).2).productsMap insS.productId
        = some { p with stock := p.stock - insS.quantity, updatedAt := now }
    ∧ SMap.get ((Mem.addReturnItem insR now st).2).productsMap insR.productId
        = some { r with stock := r.stock + insR.quantity, updatedAt := now }
    ∧ (∃ fp', SMap.get ((Fs.createSale data fits fnow fst).2).products pid = some fp'
        ∧ fp'.stock = fp.stock
            - ((fits.filter fun it => decide (it.productId = pid)).map (·.quantity)).sum)
    ∧ (SMap.get ((Mem.addSaleItem c4NegIns sampleDate c4NegSt).2).productsMap 5).map
        Mem.Product.stock = some (-4)
    ∧ ((-4 : JNum) < 0) :=
  ⟨Mem.addSaleItem_stock insS now st p hpS hidS,
   Mem.addReturnItem_stock insR now st r hpR hidR,
   Fs.createSale_stock data fits fnow fst pid fp hfp,
   by decide, by decide⟩

theorem C4_witness :
    SMap.get sampleMemSt.productsMap (5 : Nat) = some (mkMemProduct 5 10)
    ∧ (mkMemProduct 5 10).id = (5 : Nat)
    ∧ SMap.get sampleFsSt.products (5 : Nat) = some (mkFsProduct 10)
    ∧ (SMap.get ((Mem.addSaleItem c4NegIns sampleDate sampleMemSt).2).productsMap
          c4NegIns.productId
        = some { mkMemProduct 5 10 with
            stock := (mkMemProduct 5 10).stock - c4NegIns.quantity
            updatedAt := sampleDate }
      ∧ SMap.get ((Mem.addReturnItem
            { returnId := 1, productId := 5, quantity := 2, unitPrice := 10
              totalPrice := 20 } sampleDate sampleMemSt).2).productsMap 5
        = some { mkMemProduct 5 10 with
            stock := (mkMemProduct 5 10).stock + 2, updatedAt := sampleDate }
      ∧ (∃ fp', SMap.get ((Fs.createSale sampleFsSaleIns [sampleFsItem 5 4]
            sampleDate sampleFsSt).2).products 5 = some fp'
          ∧ fp'.stock = (mkFsProduct 10).stock
              - (([sampleFsItem 5 4].filter fun it =>
                  decide (it.productId = 5)).map (·.quantity)).sum)
      ∧ (SMap.get ((Mem.addSaleItem c4NegIns sampleDate c4NegSt).2).productsMap 5).map
          Mem.Product.stock = some (-4)
      ∧ ((-4 : JNum) < 0)) :=
  ⟨by decide, by decide, by decide,
    C4_stock_adjustment c4NegIns
      { returnId := 1, productId := 5, quantity := 2, unitPrice := 10, totalPrice := 20 }
      sampleDate sampleMemSt (mkMemProduct 5 10) (mkMemProduct 5 10)
      sampleFsSaleIns [sampleFsItem 5 4] sampleDate sampleFsSt 5 (mkFsProduct 10)
      (by decide) (by decide) (by decide) (by decide) (by decide)⟩

def c5FsItems : SMap Fs.FsSaleItem := [(50, sampleFsItem 5 2)]

def c5FsSt : Fs.FsStore := { sampleFsSt with saleItems := [(1, c5FsItems)] }

/-- C5: `updateSale` with a replacement item list first reverts each old
item's quantity onto its product's stock, deletes the old items, then
inserts the new items and subtracts their quantities; hence for each product
whose record exists throughout the call, the net stock change equals the
summed old quantities minus the summed new quantities for that product. -/
theorem C5_updateSale_net_stock (id : Nat) (patch : Fs.FsSale → Fs.FsSale)
    (newItems : List Fs.FsSaleItem) (now : JsDate) (st : Fs.FsStore)
    (sale : Fs.FsSale) (pid : Nat) (prod : Fs.FsProduct)
    (hs : SMap.get st.sales id = some sale)
    (hp : SMap.get st.products pid = some prod) :
    ∃ prod', SMap.get (Fs.updateSale id patch (some newItems) now st).products pid
        = some prod'
      ∧ prod'.stock = prod.stock
          + ((((SMap.get st.saleItems id).getD []).filter fun e =>
              decide (e.2.productId = pid)).map (·.2.quantity)).sum
          - ((newItems.filter fun it =>
              decide (it.productId = pid)).map (·.quantity)).sum :=
  Fs.updateSale_items_stock id patch newItems now st sale pid prod hs hp

theorem C5_witness :
    SMap.get c5FsSt.sales (1 : Nat)
        = some (mkFsSale 7 30 { ms := 10, year := 2025, month := 3 })
    ∧ SMap.get c5FsSt.products (5 : Nat) = some (mkFsProduct 10)
    ∧ (∃ prod', SMap.get (Fs.updateSale 1 (fun s => s) (some [sampleFsItem 5 3])
          sampleDate2 c5FsSt).products 5 = some prod'
        ∧ prod'.stock = (mkFsProduct 10).stock
            + ((((SMap.get c5FsSt.saleItems 1).getD []).filter fun e =>
                decide (e.2.productId = 5)).map (·.2.quantity)).sum
            - (([sampleFsItem 5 3].filter fun it =>
                decide (it.productId = 5)).map (·.quantity)).sum) :=
  ⟨by decide, by decide,
    C5_updateSale_net_stock 1 (fun s => s) [sampleFsItem 5 3] sampleDate2 c5FsSt
      (mkFsSale 7 30 { ms := 10, year := 2025, month := 3 }) 5 (mkFsProduct 10)
      (by decide) (by decide)⟩

namespace SMap

theorem get_eq_none_of_has_eq_false {α : Type} (m : SMap α) (k : Nat)
    (h : has m k = false) : get m k = none := by
  induction m with
  | nil => rfl
  | cons e t ih =>
    simp only [has, Bool.or_eq_false_iff, decide_eq_false_iff_not] at h
    simp only [get, if_neg h.1]
    exact ih h.2

end SMap

def emptyFsStore : Fs.FsStore :=
  { customers := [], products := [], sales := [], saleItems := []
    returns := [], returnItems := [], payments := [], customerBalances := []
    nextId := 1 }

def c7FsStHas : Fs.FsStore :=
  { emptyFsStore with customers := [(1, mkFsCustomer)] }

/-- C7 counterexample: the document-database client's `deleteCustomer`
returns `void` (`Unit`), and its return value is identical whether or not a
record with the id existed — so no reading of its result as the claimed
existence boolean is possible.  Concretely, on a store containing customer 1
and on an empty store the returned values coincide while existence differs. -/
theorem C7_counterexample :
    ¬ ∃ f : Unit → Bool,
      f (Fs.deleteCustomer 1 c7FsStHas).1 = SMap.has c7FsStHas.customers 1
      ∧ f (Fs.deleteCustomer 1 emptyFsStore).1 = SMap.has emptyFsStore.customers 1 := by
  rintro ⟨f, h1, h2⟩
  rw [show SMap.has c7FsStHas.customers 1 = true from by decide] at h1
  rw [show SMap.has emptyFsStore.customers 1 = false from by decide] at h2
  have he : (Fs.deleteCustomer 1 c7FsStHas).1 = (Fs.deleteCustomer 1 emptyFsStore).1 := rfl
  rw [he, h2] at h1
  exact absurd h1 (by decide)

/-- C7 amended: in the in-memory store `deleteCustomer` / `deleteProduct`
remove the record when present and return `true` exactly when it existed;
the document-database client's deletes also remove the record (a no-op when
absent) but return `void`, providing no existence indicator. -/
theorem C7_amended_delete (id : Nat) (st : Mem.MemStorage)
    (fid : Nat) (fst : Fs.FsStore) :
    ((Mem.deleteCustomer id st).1 = SMap.has st.customersMap id)
    ∧ SMap.get ((Mem.deleteCustomer id st).2).customersMap id = none
    ∧ ((Mem.deleteProduct id st).1 = SMap.has st.productsMap id)
    ∧ SMap.get ((Mem.deleteProduct id st).2).productsMap id = none
    ∧ (Fs.deleteCustomer fid fst).1 = ()
    ∧ SMap.get ((Fs.deleteCustomer fid fst).2).customers fid = none
    ∧ (Fs.deleteProduct fid fst).1 = ()
    ∧ SMap.get ((Fs.deleteProduct fid fst).2).products fid = none := by
  refine ⟨?_, ?_, ?_, ?_, rfl, SMap.get_erase_self _ _, rfl, SMap.get_erase_self _ _⟩
  · unfold Mem.deleteCustomer
    by_cases h : SMap.has st.customersMap id <;> simp [h]
  · unfold Mem.deleteCustomer
    by_cases h : SMap.has st.customersMap id
    · simp only [if_pos h]
      exact SMap.get_erase_self _ _
    · simp only [if_neg h]
      exact SMap.get_eq_none_of_has_eq_false _ _ (by simpa using h)
  · unfold Mem.deleteProduct
    by_cases h : SMap.has st.productsMap id <;> simp [h]
  · unfold Mem.deleteProduct
    by_cases h : SMap.has st.productsMap id
    · simp only [if_pos h]
      exact SMap.get_erase_self _ _
    · simp only [if_neg h]
      exact SMap.get_eq_none_of_has_eq_false _ _ (by simpa using h)

/-- C8: adding a sale line item whose `productId` matches no product does
not fail and is not rejected: the item is still recorded under its sale
(with the fresh id in the in-memory store, as a new item document under the
new sale in the document-database client), and the products collection —
hence every product's stock — is left completely unchanged. -/
theorem C8_missing_product
    (ins : Mem.InsertSaleItem) (now : JsDate) (st : Mem.MemStorage)
    (data : Fs.FsSaleInput) (fits : List Fs.FsSaleItem) (fnow : JsDate)
    (fst : Fs.FsStore)
    (hp : SMap.get st.productsMap ins.productId = none)
    (hmiss : ∀ it ∈ fits, SMap.get fst.products it.productId = none)
    (hfresh : SMap.get fst.saleItems fst.nextId = none) :
    ((Mem.addSaleItem ins now st).1
        = { id := st.saleItemIdCounter, saleId := ins.saleId
            productId := ins.productId, quantity := ins.quantity
            unitPrice := ins.unitPrice, totalPrice := ins.totalPrice }
      ∧ ((Mem.addSaleItem ins now st).2).productsMap = st.productsMap
      ∧ SMap.get ((Mem.addSaleItem ins now st).2).saleItemsMap ins.saleId
        = some ((SMap.get st.saleItemsMap ins.saleId).getD []
            ++ [(Mem.addSaleItem ins now st).1]))
    ∧ (((Fs.createSale data fits fnow fst).2).products = fst.products
      ∧ ((SMap.get ((Fs.createSale data fits fnow fst).2).saleItems
          (Fs.createSale data fits fnow fst).1).getD []).map (·.2) = fits) :=
  ⟨Mem.addSaleItem_missing ins now st hp,
   Fs.createSale_missing data fits fnow fst hmiss hfresh⟩

def c8MemIns : Mem.InsertSaleItem :=
  { saleId := 1, productId := 99, quantity := 3, unitPrice := 10, totalPrice := 30 }

theorem C8_witness :
    SMap.get sampleMemSt.productsMap c8MemIns.productId = none
    ∧ (∀ it ∈ [sampleFsItem 99 4], SMap.get sampleFsSt.products it.productId = none)
    ∧ SMap.get sampleFsSt.saleItems sampleFsSt.nextId = none
    ∧ (((Mem.addSaleItem c8MemIns sampleDate sampleMemSt).1
          = { id := sampleMemSt.saleItemIdCounter, saleId := c8MemIns.saleId
              productId := c8MemIns.productId, quantity := c8MemIns.quantity
              unitPrice := c8MemIns.unitPrice, totalPrice := c8MemIns.totalPrice }
        ∧ ((Mem.addSaleItem c8MemIns sampleDate sampleMemSt).2).productsMap
          = sampleMemSt.productsMap
        ∧ SMap.get ((Mem.addSaleItem c8MemIns sampleDate sampleMemSt).2).saleItemsMap
            c8MemIns.saleId
          = some ((SMap.get sampleMemSt.saleItemsMap c8MemIns.saleId).getD []
              ++ [(Mem.addSaleItem c8MemIns sampleDate sampleMemSt).1]))
      ∧ (((Fs.createSale sampleFsSaleIns [sampleFsItem 99 4] sampleDate sampleFsSt).2).products
          = sampleFsSt.products
        ∧ ((SMap.get ((Fs.createSale sampleFsSaleIns [sampleFsItem 99 4] sampleDate
            sampleFsSt).2).saleItems
            (Fs.createSale sampleFsSaleIns [sampleFsItem 99 4] sampleDate sampleFsSt).1).getD
              []).map (·.2) = [sampleFsItem 99 4])) :=
  ⟨by decide, by decide, by decide,
    C8_missing_product c8MemIns sampleDate sampleMemSt sampleFsSaleIns
      [sampleFsItem 99 4] sampleDate sampleFsSt (by decide) (by decide) (by decide)⟩

/-- C9: `createPayment` with a `saleId` matching no sale still persists the
payment record and returns it, and leaves the sales collection (hence every
sale's payment status) and every stored `CustomerBalance` record unchanged:
the status derivation and ledger aggregation are silently skipped. -/
theorem C9_createPayment_missing_sale
    (ins : Mem.InsertPayment) (now : JsDate) (st : Mem.MemStorage)
    (data : Fs.FsPaymentInput) (fnow : JsDate) (fst : Fs.FsStore)
    (hs : SMap.get st.salesMap ins.saleId = none)
    (hfs : SMap.get fst.sales data.saleId = none) :
    ((Mem.createPayment ins now st).1
        = { id := st.paymentIdCounter, saleId := ins.saleId
            amount := ins.amount, paymentMethod := ins.paymentMethod
            date := ins.date, reference := ins.reference
            createdBy := ins.createdBy, createdAt := now }
      ∧ SMap.get ((Mem.createPayment ins now st).2).paymentsMap st.paymentIdCounter
        = some (Mem.createPayment ins now st).1
      ∧ ((Mem.createPayment ins now st).2).salesMap = st.salesMap
      ∧ ((Mem.createPayment ins now st).2).customerBalancesMap
        = st.customerBalancesMap)
    ∧ ((Fs.createPayment data fnow fst).1 = fst.nextId
      ∧ (SMap.get ((Fs.createPayment data fnow fst).2).payments fst.nextId).isSome = true
      ∧ (SMap.get ((Fs.createPayment data fnow fst).2).payments fst.nextId).map
          (fun p => (p.saleId, p.amount, p.createdAt))
        = some (data.saleId, data.amount, fnow)
      ∧ ((Fs.createPayment data fnow fst).2).sales = fst.sales
      ∧ ((Fs.createPayment data fnow fst).2).customerBalances = fst.customerBalances) :=
  ⟨Mem.createPayment_missing ins now st hs,
   Fs.createPayment_fs_missing data fnow fst hfs⟩

def c9MemIns : Mem.InsertPayment :=
  { saleId := 99, amount := 10, paymentMethod := "cash", date := sampleDate
    reference := "", createdBy := "u" }

def c9FsIns : Fs.FsPaymentInput :=
  { saleId := 99, amount := 10, paymentMethod := "cash", date := sampleDate
    reference := "", createdBy := "u" }

theorem C9_witness :
    SMap.get sampleMemSt.salesMap c9MemIns.saleId = none
    ∧ SMap.get sampleFsSt.sales c9FsIns.saleId = none
    ∧ (((Mem.createPayment c9MemIns sampleDate sampleMemSt).1
          = { id := sampleMemSt.paymentIdCounter, saleId := c9MemIns.saleId
              amount := c9MemIns.amount, paymentMethod := c9MemIns.paymentMethod
              date := c9MemIns.date, reference := c9MemIns.reference
              createdBy := c9MemIns.createdBy, createdAt := sampleDate }
        ∧ SMap.get ((Mem.createPayment c9MemIns sampleDate sampleMemSt).2).paymentsMap
            sampleMemSt.paymentIdCounter
          = some (Mem.createPayment c9MemIns sampleDate sampleMemSt).1
        ∧ ((Mem.createPayment c9MemIns sampleDate sampleMemSt).2).salesMap
          = sampleMemSt.salesMap
        ∧ ((Mem.createPayment c9MemIns sampleDate sampleMemSt).2).customerBalancesMap
          = sampleMemSt.customerBalancesMap)
      ∧ ((Fs.createPayment c9FsIns sampleDate sampleFsSt).1 = sampleFsSt.nextId
        ∧ (SMap.get ((Fs.createPayment c9FsIns sampleDate sampleFsSt).2).payments
            sampleFsSt.nextId).isSome = true
        ∧ (SMap.get ((Fs.createPayment c9FsIns sampleDate sampleFsSt).2).payments
            sampleFsSt.nextId).map (fun p => (p.saleId, p.amount, p.createdAt))
          = some (c9FsIns.saleId, c9FsIns.amount, sampleDate)
        ∧ ((Fs.createPayment c9FsIns sampleDate sampleFsSt).2).sales = sampleFsSt.sales
        ∧ ((Fs.createPayment c9FsIns sampleDate sampleFsSt).2).customerBalances
          = sampleFsSt.customerBalances)) :=
  ⟨by decide, by decide,
    C9_createPayment_missing_sale c9MemIns sampleDate sampleMemSt c9FsIns
      sampleDate sampleFsSt (by decide) (by decide)⟩

/-! ## Claim C3: invoice-number generation -/

theorem str_data_append (a b : String) : (a ++ b).data = a.data ++ b.data := rfl

theorem takeTrailing_concat (p0 d : List Char)
    (hd : ∀ c ∈ d, c.isDigit = true) :
    ((p0 ++ '-' :: d).reverse.takeWhile Char.isDigit).reverse = d := by
  rw [List.reverse_append, List.reverse_cons, List.append_assoc]
  rw [takeWhile_append_all (by intro x hx; exact hd x (List.mem_reverse.mp hx))]
  have : (['-'] ++ p0.reverse).takeWhile Char.isDigit = [] := by
    simp [List.takeWhile_cons]
  rw [this]
  simp

theorem mkInvoiceNumber_data (stem : String) (y m v : Nat) :
    (mkInvoiceNumber stem y m v).data
      = (stem.data ++ natDigits y ++ (padZeros 2 (natToString m)).data)
        ++ '-' :: (padZeros 4 (natToString v)).data := by
  show (stem ++ natToString y ++ padZeros 2 (natToString m) ++ "-"
      ++ padZeros 4 (natToString v)).data = _
  simp only [str_data_append, List.append_assoc]
  rfl

theorem padZeros_all_digits (w v : Nat) :
    ∀ c ∈ (padZeros w (natToString v)).data, c.isDigit = true := by
  intro c hc
  simp only [padZeros, natToString, List.mem_append] at hc
  rcases hc with hc | hc
  · rw [List.eq_of_mem_replicate hc]
    decide
  · exact natDigits_all_digits v c hc

theorem trailingDigits_mkInvoiceNumber (stem : String) (y m v : Nat) :
    trailingDigits (mkInvoiceNumber stem y m v)
      = (padZeros 4 (natToString v)).data := by
  unfold trailingDigits
  rw [mkInvoiceNumber_data]
  exact takeTrailing_concat _ _ (padZeros_all_digits 4 v)

theorem padZeros_data_ne_nil (w v : Nat) :
    (padZeros w (natToString v)).data ≠ [] := by
  simp only [padZeros, natToString]
  intro h
  rcases List.append_eq_nil.mp h with ⟨_, h2⟩
  exact natDigits_ne_nil v h2

theorem parseTrailingNat_mkInvoiceNumber (stem : String) (y m v : Nat) :
    parseTrailingNat (mkInvoiceNumber stem y m v) = v := by
  unfold parseTrailingNat
  rw [trailingDigits_mkInvoiceNumber]
  rw [if_neg (by simp [List.isEmpty_iff, padZeros_data_ne_nil 4 v])]
  show digitsVal (List.replicate (4 - (natToString v).data.length) '0'
    ++ (natToString v).data) = v
  rw [digitsVal_replicate_zero_append]
  exact digitsVal_natDigits v

theorem natRevDigitsF_length_le : ∀ (f k n : Nat), n ≤ f → n < 10 ^ k →
    (natRevDigitsF f n).length ≤ k := by
  intro f
  induction f with
  | zero =>
    intro k n hf _
    interval_cases n
    simp [natRevDigitsF]
  | succ f ih =>
    intro k n hf hk
    match n with
    | 0 => simp [natRevDigitsF]
    | n + 1 =>
      match k with
      | 0 => omega
      | k + 1 =>
        simp only [natRevDigitsF, List.length_cons]
        have hdiv : (n + 1) / 10 < 10 ^ k := by
          rw [Nat.div_lt_iff_lt_mul (by omega)]
          calc n + 1 < 10 ^ (k + 1) := hk
            _ = 10 ^ k * 10 := by rw [pow_succ]
        have := ih k ((n + 1) / 10) (by omega) hdiv
        omega

theorem natDigits_length_le (v k : Nat) (hk : 1 ≤ k) (h : v < 10 ^ k) :
    (natDigits v).length ≤ k := by
  by_cases hv : v = 0
  · subst hv; simp [natDigits]; omega
  · simp only [natDigits, if_neg hv, List.length_reverse]
    exact natRevDigitsF_length_le v k v (le_refl v) h

theorem trailingDigits_mk_length (stem : String) (y m v : Nat) :
    4 ≤ (trailingDigits (mkInvoiceNumber stem y m v)).length
    ∧ (v < 10000 → (trailingDigits (mkInvoiceNumber stem y m v)).length = 4) := by
  rw [trailingDigits_mkInvoiceNumber]
  show 4 ≤ (List.replicate (4 - (natToString v).data.length) '0'
      ++ (natToString v).data).length
    ∧ (v < 10000 → (List.replicate (4 - (natToString v).data.length) '0'
      ++ (natToString v).data).length = 4)
  rw [List.length_append, List.length_replicate]
  have hpos : 1 ≤ (natToString v).data.length := by
    show 1 ≤ (natDigits v).length
    cases hh : natDigits v with
    | nil => exact absurd hh (natDigits_ne_nil v)
    | cons a t => simp
  constructor
  · omega
  · intro hv
    have : (natToString v).data.length ≤ 4 := by
      show (natDigits v).length ≤ 4
      exact natDigits_length_le v 4 (by omega) (by norm_num; omega)
    omega

/-- The expected sequence of generated invoice numbers: `n` consecutive
numbers for year `y` / month `m` starting at sequence value `c0`. -/
def invoiceSeq (c0 y m : Nat) : Nat → List String
  | 0 => []
  | n + 1 => mkInvoiceNumber "INV-" y m c0 :: invoiceSeq (c0 + 1) y m n

theorem invoiceSeq_mem (y m : Nat) : ∀ (n c0 : Nat) (x : String),
    x ∈ invoiceSeq c0 y m n →
    ∃ v, c0 ≤ v ∧ v < c0 + n ∧ x = mkInvoiceNumber "INV-" y m v := by
  intro n
  induction n with
  | zero => intro c0 x hx; simp [invoiceSeq] at hx
  | succ n ih =>
    intro c0 x hx
    simp only [invoiceSeq, List.mem_cons] at hx
    rcases hx with hx | hx
    · exact ⟨c0, le_refl _, by omega, hx⟩
    · obtain ⟨v, h1, h2, h3⟩ := ih (c0 + 1) x hx
      exact ⟨v, by omega, by omega, h3⟩

theorem invoiceSeq_pairwise (y m : Nat) : ∀ (n c0 : Nat),
    (invoiceSeq c0 y m n).Pairwise
      (fun a b => parseTrailingNat a < parseTrailingNat b ∧ a ≠ b) := by
  intro n
  induction n with
  | zero => intro c0; exact List.Pairwise.nil
  | succ n ih =>
    intro c0
    refine List.Pairwise.cons ?_ (ih (c0 + 1))
    intro x hx
    obtain ⟨v, h1, h2, rfl⟩ := invoiceSeq_mem y m n (c0 + 1) x hx
    constructor
    · rw [parseTrailingNat_mkInvoiceNumber, parseTrailingNat_mkInvoiceNumber]
      omega
    · intro he
      have := congrArg parseTrailingNat he
      rw [parseTrailingNat_mkInvoiceNumber, parseTrailingNat_mkInvoiceNumber] at this
      omega

theorem invoiceSeq_format (y m n c0 : Nat) (x : String)
    (hx : x ∈ invoiceSeq c0 y m n) :
    ∃ v, x = mkInvoiceNumber "INV-" y m v ∧ parseTrailingNat x = v
      ∧ 4 ≤ (trailingDigits x).length
      ∧ (v < 10000 → (trailingDigits x).length = 4) := by
  obtain ⟨v, _, _, rfl⟩ := invoiceSeq_mem y m n c0 x hx
  exact ⟨v, rfl, parseTrailingNat_mkInvoiceNumber _ _ _ _,
    (trailingDigits_mk_length "INV-" y m v).1,
    (trailingDigits_mk_length "INV-" y m v).2⟩

namespace SMap

theorem get_append_fresh {α : Type} (l : SMap α) (k : Nat) (v : α)
    (h : k ∉ keys l) :
    get (l ++ [(k, v)]) k = some v := by
  rw [← set_eq_append l k v h]
  exact get_set_self l k v

end SMap

namespace Mem

/-- A sequential (non-concurrent) run of `createSale` calls. -/
def createSaleRun (inputs : List (InsertSale × JsDate)) (st : MemStorage) :
    List Sale × MemStorage :=
  match inputs with
  | [] => ([], st)
  | (ins, d) :: rest =>
    let r := createSale ins d st
    let r2 := createSaleRun rest r.2
    (r.1 :: r2.1, r2.2)

theorem createSale_counter (ins : InsertSale) (d : JsDate) (st : MemStorage) :
    ((createSale ins d st).2).saleIdCounter = st.saleIdCounter + 1 := rfl

theorem createSale_invoice (ins : InsertSale) (d : JsDate) (st : MemStorage) :
    ((createSale ins d st).1).invoiceNumber
      = mkInvoiceNumber "INV-" d.year d.month st.saleIdCounter := rfl

/-- The id-based sequencing policy: a same-month run yields consecutive
suffixes starting at the current sale-id counter. -/
theorem createSaleRun_invoices :
    ∀ (inputs : List (InsertSale × JsDate)) (st : MemStorage) (y m : Nat),
    (∀ e ∈ inputs, e.2.year = y ∧ e.2.month = m) →
    ((createSaleRun inputs st).1).map (·.invoiceNumber)
      = invoiceSeq st.saleIdCounter y m inputs.length := by
  intro inputs
  induction inputs with
  | nil => intro st y m _; rfl
  | cons e rest ih =>
    obtain ⟨ins, d⟩ := e
    intro st y m hym
    have hy := hym (ins, d) (by simp)
    show ((createSale ins d st).1.invoiceNumber)
        :: ((createSaleRun rest (createSale ins d st).2).1).map (·.invoiceNumber)
      = mkInvoiceNumber "INV-" y m st.saleIdCounter
        :: invoiceSeq (st.saleIdCounter + 1) y m rest.length
    have h1 : (createSale ins d st).1.invoiceNumber
        = mkInvoiceNumber "INV-" y m st.saleIdCounter := by
      rw [createSale_invoice, hy.1, hy.2]
    have h2 : ((createSaleRun rest (createSale ins d st).2).1).map (·.invoiceNumber)
        = invoiceSeq (st.saleIdCounter + 1) y m rest.length := by
      rw [ih ((createSale ins d st).2) y m
        (fun x hx => hym x (List.mem_cons_of_mem _ hx)), createSale_counter]
    rw [h1, h2]

end Mem

namespace Fs

/-- A sequential (non-concurrent) run of `createSale` calls; each element of
the result is the invoice number stored on the document the call created. -/
def createSaleRun (inputs : List (FsSaleInput × List FsSaleItem × JsDate))
    (st : FsStore) : List String × FsStore :=
  match inputs with
  | [] => ([], st)
  | (data, its, d) :: rest =>
    let r := createSale data its d st
    let inv :=
      match SMap.get r.2.sales r.1 with
      | some s => s.invoiceNumber
      | none => ""
    let r2 := createSaleRun rest r.2
    (inv :: r2.1, r2.2)

theorem applyOne_nextId (d : Nat) (now : JsDate) (st : FsStore) (it : FsSaleItem) :
    (applyOneSaleItem d now st it).nextId = st.nextId + 1 := by
  simp only [applyOneSaleItem]
  cases SMap.get st.products it.productId with
  | none => rfl
  | some p => rw [updateProduct_nextId]

theorem applySaleItems_nextId (d : Nat) (its : List FsSaleItem) (now : JsDate)
    (st : FsStore) :
    (applySaleItems d its now st).nextId = st.nextId + its.length := by
  induction its generalizing st with
  | nil => rfl
  | cons it rest ih =>
    show (applySaleItems d rest now (applyOneSaleItem d now st it)).nextId = _
    rw [ih, applyOne_nextId, List.length_cons]
    omega

theorem latestSale_aux_mem :
    ∀ (l : SMap FsSale) (acc : Option (Nat × FsSale)) (a : Nat × FsSale),
    l.foldl (fun acc e =>
      match acc with
      | none => some e
      | some a0 => if a0.2.createdAt.ms < e.2.createdAt.ms then some e else acc)
      acc = some a
    → acc = some a ∨ a ∈ l := by
  intro l
  induction l with
  | nil => intro acc a h; exact Or.inl h
  | cons e t ih =>
    intro acc a h
    rcases ih _ a h with hl | hr
    · cases acc with
      | none =>
        simp only [Option.some.injEq] at hl
        exact Or.inr (by simp [hl])
      | some a0 =>
        by_cases hc : a0.2.createdAt.ms < e.2.createdAt.ms
        · simp only [if_pos hc, Option.some.injEq] at hl
          exact Or.inr (by simp [hl])
        · simp only [if_neg hc] at hl
          exact Or.inl hl
    · exact Or.inr (List.mem_cons_of_mem _ hr)

theorem latestSale_mem (l : SMap FsSale) (a : Nat × FsSale)
    (h : latestSale l = some a) : a ∈ l := by
  rcases latestSale_aux_mem l none a h with hl | hr
  · exact absurd hl (by simp)
  · exact hr

theorem latestSale_append (l : SMap FsSale) (x : Nat × FsSale)
    (h : ∀ e ∈ l, e.2.createdAt.ms < x.2.createdAt.ms) :
    latestSale (l ++ [x]) = some x := by
  unfold latestSale
  rw [List.foldl_append]
  cases hl : l.foldl (fun acc e =>
      match acc with
      | none => some e
      | some a0 => if a0.2.createdAt.ms < e.2.createdAt.ms then some e else acc)
      none with
  | none => rfl
  | some a =>
    have ha : a ∈ l := latestSale_mem l a hl
    show (if a.2.createdAt.ms < x.2.createdAt.ms then some x else some a) = some x
    rw [if_pos (h a ha)]

/-- One `createSale` call appends a single sale document carrying the
generated invoice number, returns its fresh id, and advances the id counter. -/
theorem createSale_step (data : FsSaleInput) (its : List FsSaleItem)
    (d : JsDate) (st : FsStore)
    (hkeys : ∀ k ∈ SMap.keys st.sales, k < st.nextId) :
    (createSale data its d st).1 = st.nextId
    ∧ ((createSale data its d st).2).sales
      = st.sales ++ [(st.nextId, newSaleDoc data
          (mkInvoiceNumber "INV-" d.year d.month (lastInvoiceVal st.sales + 1)) d)]
    ∧ ((createSale data its d st).2).nextId = st.nextId + 1 + its.length := by
  refine ⟨rfl, ?_, ?_⟩
  · show (updateCustomerBalance data.customerId d
        (applySaleItems st.nextId its d (saleInsertState data d st))).sales = _
    rw [updCB_sales, applySaleItems_sales]
    show SMap.set st.sales st.nextId _ = _
    exact SMap.set_eq_append _ _ _ (fun hm => absurd (hkeys _ hm) (lt_irrefl _))
  · show (updateCustomerBalance data.customerId d
        (applySaleItems st.nextId its d (saleInsertState data d st))).nextId = _
    rw [updCB_nextId, applySaleItems_nextId]
    rfl

/-- The parse-last-record sequencing policy: a same-month sequential run with
strictly increasing creation timestamps (later than everything already
stored) yields consecutive suffixes continuing from the most recent stored
invoice number. -/
theorem createSaleRun_fs_invoices :
    ∀ (inputs : List (FsSaleInput × List FsSaleItem × JsDate)) (st : FsStore)
      (y m : Nat),
    (∀ e ∈ inputs, e.2.2.year = y ∧ e.2.2.month = m) →
    (∀ k ∈ SMap.keys st.sales, k < st.nextId) →
    (∀ e ∈ st.sales, ∀ inp ∈ inputs, e.2.createdAt.ms < inp.2.2.ms) →
    inputs.Pairwise (fun a b => a.2.2.ms < b.2.2.ms) →
    (createSaleRun inputs st).1
      = invoiceSeq (lastInvoiceVal st.sales + 1) y m inputs.length := by
  intro inputs
  induction inputs with
  | nil => intro st y m _ _ _ _; rfl
  | cons e rest ih =>
    obtain ⟨data, its, d⟩ := e
    intro st y m hym hkeys hms hsort
    obtain ⟨h1, h2, h3⟩ := createSale_step data its d st hkeys
    have hy := hym (data, its, d) (by simp)
    have hfresh : st.nextId ∉ SMap.keys st.sales :=
      fun hm => absurd (hkeys _ hm) (lt_irrefl _)
    have hinv : (match SMap.get ((createSale data its d st).2).sales
          (createSale data its d st).1 with
        | some s => s.invoiceNumber
        | none => "") = mkInvoiceNumber "INV-" y m (lastInvoiceVal st.sales + 1) := by
      rw [h1, h2, SMap.get_append_fresh _ _ _ hfresh]
      show (newSaleDoc data
        (mkInvoiceNumber "INV-" d.year d.month (lastInvoiceVal st.sales + 1)) d).invoiceNumber
        = _
      show mkInvoiceNumber "INV-" d.year d.month (lastInvoiceVal st.sales + 1) = _
      rw [hy.1, hy.2]
    have hkeys' : ∀ k ∈ SMap.keys ((createSale data its d st).2).sales,
        k < ((createSale data its d st).2).nextId := by
      rw [h2, h3]
      intro k hk
      simp only [SMap.keys, List.map_append, List.mem_append, List.map_cons,
        List.map_nil, List.mem_cons, List.not_mem_nil, or_false] at hk
      rcases hk with hk | hk
      · exact lt_of_lt_of_le (hkeys k hk) (by omega)
      · omega
    have hms' : ∀ e ∈ ((createSale data its d st).2).sales, ∀ inp ∈ rest,
        e.2.createdAt.ms < inp.2.2.ms := by
      rw [h2]
      intro e he inp hinp
      rcases List.mem_append.mp he with he | he
      · exact hms e he inp (List.mem_cons_of_mem _ hinp)
      · simp only [List.mem_cons, List.not_mem_nil, or_false] at he
        subst he
        show d.ms < inp.2.2.ms
        exact (List.pairwise_cons.mp hsort).1 inp hinp
    have hL' : lastInvoiceVal ((createSale data its d st).2).sales
        = lastInvoiceVal st.sales + 1 := by
      unfold lastInvoiceVal
      rw [h2, latestSale_append _ _ (by
        intro e he
        exact hms e he (data, its, d) (by simp))]
      exact parseTrailingNat_mkInvoiceNumber _ _ _ _
    show (match SMap.get ((createSale data its d st).2).sales
          (createSale data its d st).1 with
        | some s => s.invoiceNumber
        | none => "")
        :: (createSaleRun rest (createSale data its d st).2).1
      = mkInvoiceNumber "INV-" y m (lastInvoiceVal st.sales + 1)
        :: invoiceSeq (lastInvoiceVal st.sales + 1 + 1) y m rest.length
    rw [hinv, ih ((createSale data its d st).2) y m
      (fun x hx => hym x (List.mem_cons_of_mem _ hx)) hkeys' hms'
      (List.pairwise_cons.mp hsort).2, hL']

end Fs

def c3Date : JsDate := { ms := 1, year := 2025, month := 4 }

def c3Sale : Fs.FsSale :=
  { mkFsSale 7 30 { ms := 0, year := 2025, month := 3 } with
    invoiceNumber := "INV-202503-9999" }

def c3FsStore : Fs.FsStore :=
  { emptyFsStore with sales := [(1, c3Sale)], nextId := 2 }

/-- C3 counterexample: with the most recently created sale carrying invoice
number `INV-202503-9999` (reachable, since neither sequencing policy ever
resets), a single-call same-month run in April 2025 generates
`INV-202504-10000`, whose numeric suffix has five digits — not the claimed
4-digit `NNNN`. -/
theorem C3_counterexample :
    (Fs.createSaleRun [(sampleFsSaleIns, [], c3Date)] c3FsStore).1
        = ["INV-202504-10000"]
    ∧ (trailingDigits "INV-202504-10000").length ≠ 4 := by
  constructor
  · decide
  · decide

/-- C3 amended: for every sequence of non-concurrent `createSale` calls
whose creation timestamps fall in the same calendar year-month, the
generated invoice numbers have the form `INV-YYYYMM-N…N` where `YYYY`/`MM`
come from the creation timestamp and the numeric suffix is zero-padded to at
least 4 digits (exactly 4 whenever the sequence value is at most 9999), and
the numeric suffixes are pairwise distinct and strictly increasing in
creation order; this holds in both store implementations — the id-based one
continues from the sale-id counter, and the parse-last-record one continues
from the suffix of the most recently created sale (given fresh document ids
and strictly increasing creation timestamps). -/
theorem C3_amended_invoice_numbers
    (inputsM : List (Mem.InsertSale × JsDate)) (st : Mem.MemStorage)
    (inputsF : List (Fs.FsSaleInput × List Fs.FsSaleItem × JsDate))
    (fst : Fs.FsStore) (y m : Nat)
    (hymM : ∀ e ∈ inputsM, e.2.year = y ∧ e.2.month = m)
    (hymF : ∀ e ∈ inputsF, e.2.2.year = y ∧ e.2.2.month = m)
    (hkeys : ∀ k ∈ SMap.keys fst.sales, k < fst.nextId)
    (hms : ∀ e ∈ fst.sales, ∀ inp ∈ inputsF, e.2.createdAt.ms < inp.2.2.ms)
    (hsort : inputsF.Pairwise (fun a b => a.2.2.ms < b.2.2.ms)) :
    (((Mem.createSaleRun inputsM st).1).map (·.invoiceNumber)
        = invoiceSeq st.saleIdCounter y m inputsM.length
      ∧ (∀ x ∈ ((Mem.createSaleRun inputsM st).1).map (·.invoiceNumber),
          ∃ v, x = mkInvoiceNumber "INV-" y m v ∧ parseTrailingNat x = v
            ∧ 4 ≤ (trailingDigits x).length
            ∧ (v < 10000 → (trailingDigits x).length = 4))
      ∧ (((Mem.createSaleRun inputsM st).1).map (·.invoiceNumber)).Pairwise
          (fun a b => parseTrailingNat a < parseTrailingNat b ∧ a ≠ b))
    ∧ ((Fs.createSaleRun inputsF fst).1
        = invoiceSeq (Fs.lastInvoiceVal fst.sales + 1) y m inputsF.length
      ∧ (∀ x ∈ (Fs.createSaleRun inputsF fst).1,
          ∃ v, x = mkInvoiceNumber "INV-" y m v ∧ parseTrailingNat x = v
            ∧ 4 ≤ (trailingDigits x).length
            ∧ (v < 10000 → (trailingDigits x).length = 4))
      ∧ ((Fs.createSaleRun inputsF fst).1).Pairwise
          (fun a b => parseTrailingNat a < parseTrailingNat b ∧ a ≠ b)) := by
  have hM := Mem.createSaleRun_invoices inputsM st y m hymM
  have hF := Fs.createSaleRun_fs_invoices inputsF fst y m hymF hkeys hms hsort
  refine ⟨⟨hM, ?_, ?_⟩, hF, ?_, ?_⟩
  · rw [hM]
    intro x hx
    exact invoiceSeq_format y m _ _ x hx
  · rw [hM]
    exact invoiceSeq_pairwise y m _ _
  · rw [hF]
    intro x hx
    exact invoiceSeq_format y m _ _ x hx
  · rw [hF]
    exact invoiceSeq_pairwise y m _ _

def sampleMemSaleIns : Mem.InsertSale :=
  { invoiceNumber := "", customerId := 7, date := sampleDate, subTotal := 30
    discountAmount := 0, totalAmount := 30, paymentMethod := "cash"
    paymentStatus := PaymentStatus.pending, notes := "", createdBy := "u" }

def c3InputsM : List (Mem.InsertSale × JsDate) :=
  [(sampleMemSaleIns, sampleDate), (sampleMemSaleIns, sampleDate2)]

def c3InputsF : List (Fs.FsSaleInput × List Fs.FsSaleItem × JsDate) :=
  [(sampleFsSaleIns, [], sampleDate), (sampleFsSaleIns, [], sampleDate2)]

theorem C3_witness :
    (∀ e ∈ c3InputsM, e.2.year = 2025 ∧ e.2.month = 4)
    ∧ (∀ e ∈ c3InputsF, e.2.2.year = 2025 ∧ e.2.2.month = 4)
    ∧ (∀ k ∈ SMap.keys emptyFsStore.sales, k < emptyFsStore.nextId)
    ∧ (∀ e ∈ emptyFsStore.sales, ∀ inp ∈ c3InputsF, e.2.createdAt.ms < inp.2.2.ms)
    ∧ c3InputsF.Pairwise (fun a b => a.2.2.ms < b.2.2.ms)
    ∧ ((((Mem.createSaleRun c3InputsM Mem.emptyStorage).1).map (·.invoiceNumber)
          = invoiceSeq Mem.emptyStorage.saleIdCounter 2025 4 c3InputsM.length
        ∧ (∀ x ∈ ((Mem.createSaleRun c3InputsM Mem.emptyStorage).1).map (·.invoiceNumber),
            ∃ v, x = mkInvoiceNumber "INV-" 2025 4 v ∧ parseTrailingNat x = v
              ∧ 4 ≤ (trailingDigits x).length
              ∧ (v < 10000 → (trailingDigits x).length = 4))
        ∧ (((Mem.createSaleRun c3InputsM Mem.emptyStorage).1).map (·.invoiceNumber)).Pairwise
            (fun a b => parseTrailingNat a < parseTrailingNat b ∧ a ≠ b))
      ∧ ((Fs.createSaleRun c3InputsF emptyFsStore).1
          = invoiceSeq (Fs.lastInvoiceVal emptyFsStore.sales + 1) 2025 4 c3InputsF.length
        ∧ (∀ x ∈ (Fs.createSaleRun c3InputsF emptyFsStore).1,
            ∃ v, x = mkInvoiceNumber "INV-" 2025 4 v ∧ parseTrailingNat x = v
              ∧ 4 ≤ (trailingDigits x).length
              ∧ (v < 10000 → (trailingDigits x).length = 4))
        ∧ ((Fs.createSaleRun c3InputsF emptyFsStore).1).Pairwise
            (fun a b => parseTrailingNat a < parseTrailingNat b ∧ a ≠ b))) :=
  ⟨by decide, by decide, by decide, by decide, by decide,
    C3_amended_invoice_numbers c3InputsM Mem.emptyStorage c3InputsF emptyFsStore
      2025 4 (by decide) (by decide) (by decide) (by decide) (by decide)⟩
